import Mathlib

/-!
Verification of the issue-context aggregation engine of the
`jira-testplan-bot` repository.

The Python modules under `src/app/` are shallowly embedded here:

* JSON values (the payloads of every external API and the ADF rich-text
  trees) are modelled by the inductive type `JVal`; Python `None` is
  `JVal.null`.
* Pure functions become Lean functions.  Code that can raise a Python
  exception is modelled in `Except Unit`, where `.error ()` stands for an
  uncaught exception (`AttributeError`, `TypeError`, `KeyError`, ...).
* Network I/O is modelled by an explicit `World` record supplying the
  response of every endpoint used during a single `get_issue` call.
-/

set_option linter.unusedVariables false

/-- A JSON-like Python value: `None`, `bool`, `int`, `str`, `list`, `dict`
(with string keys, first-match lookup).  Python `None` is `JVal.null`. -/
inductive JVal where
  | null : JVal
  | bool (b : Bool) : JVal
  | num (n : Int) : JVal
  | str (s : String) : JVal
  | arr (items : List JVal) : JVal
  | obj (fields : List (String × JVal)) : JVal

mutual
/-- Decidable equality of `JVal` (written by hand: `deriving` does not
handle this nested inductive). -/
def jvalDecEq : (a b : JVal) → Decidable (a = b)
  | .null, .null => isTrue rfl
  | .bool a, .bool b =>
      if h : a = b then isTrue (by rw [h]) else isFalse (by intro q; cases q; exact h rfl)
  | .num a, .num b =>
      if h : a = b then isTrue (by rw [h]) else isFalse (by intro q; cases q; exact h rfl)
  | .str a, .str b =>
      if h : a = b then isTrue (by rw [h]) else isFalse (by intro q; cases q; exact h rfl)
  | .arr a, .arr b =>
      match jvalDecEqList a b with
      | isTrue h => isTrue (by rw [h])
      | isFalse h => isFalse (by intro q; cases q; exact h rfl)
  | .obj a, .obj b =>
      match jvalDecEqFields a b with
      | isTrue h => isTrue (by rw [h])
      | isFalse h => isFalse (by intro q; cases q; exact h rfl)
  | .null, .bool _ => isFalse (fun h => JVal.noConfusion h)
  | .null, .num _ => isFalse (fun h => JVal.noConfusion h)
  | .null, .str _ => isFalse (fun h => JVal.noConfusion h)
  | .null, .arr _ => isFalse (fun h => JVal.noConfusion h)
  | .null, .obj _ => isFalse (fun h => JVal.noConfusion h)
  | .bool _, .null => isFalse (fun h => JVal.noConfusion h)
  | .bool _, .num _ => isFalse (fun h => JVal.noConfusion h)
  | .bool _, .str _ => isFalse (fun h => JVal.noConfusion h)
  | .bool _, .arr _ => isFalse (fun h => JVal.noConfusion h)
  | .bool _, .obj _ => isFalse (fun h => JVal.noConfusion h)
  | .num _, .null => isFalse (fun h => JVal.noConfusion h)
  | .num _, .bool _ => isFalse (fun h => JVal.noConfusion h)
  | .num _, .str _ => isFalse (fun h => JVal.noConfusion h)
  | .num _, .arr _ => isFalse (fun h => JVal.noConfusion h)
  | .num _, .obj _ => isFalse (fun h => JVal.noConfusion h)
  | .str _, .null => isFalse (fun h => JVal.noConfusion h)
  | .str _, .bool _ => isFalse (fun h => JVal.noConfusion h)
  | .str _, .num _ => isFalse (fun h => JVal.noConfusion h)
  | .str _, .arr _ => isFalse (fun h => JVal.noConfusion h)
  | .str _, .obj _ => isFalse (fun h => JVal.noConfusion h)
  | .arr _, .null => isFalse (fun h => JVal.noConfusion h)
  | .arr _, .bool _ => isFalse (fun h => JVal.noConfusion h)
  | .arr _, .num _ => isFalse (fun h => JVal.noConfusion h)
  | .arr _, .str _ => isFalse (fun h => JVal.noConfusion h)
  | .arr _, .obj _ => isFalse (fun h => JVal.noConfusion h)
  | .obj _, .null => isFalse (fun h => JVal.noConfusion h)
  | .obj _, .bool _ => isFalse (fun h => JVal.noConfusion h)
  | .obj _, .num _ => isFalse (fun h => JVal.noConfusion h)
  | .obj _, .str _ => isFalse (fun h => JVal.noConfusion h)
  | .obj _, .arr _ => isFalse (fun h => JVal.noConfusion h)

/-- Decidable equality of lists of `JVal`. -/
def jvalDecEqList : (a b : List JVal) → Decidable (a = b)
  | [], [] => isTrue rfl
  | [], _ :: _ => isFalse (fun h => List.noConfusion h)
  | _ :: _, [] => isFalse (fun h => List.noConfusion h)
  | x :: xs, y :: ys =>
      match jvalDecEq x y with
      | isFalse h1 => isFalse (by intro q; injection q with q1 q2; exact h1 q1)
      | isTrue h1 =>
          match jvalDecEqList xs ys with
          | isTrue h2 => isTrue (by rw [h1, h2])
          | isFalse h2 => isFalse (by intro q; injection q with q1 q2; exact h2 q2)

/-- Decidable equality of dict entry lists. -/
def jvalDecEqFields : (a b : List (String × JVal)) → Decidable (a = b)
  | [], [] => isTrue rfl
  | [], _ :: _ => isFalse (fun h => List.noConfusion h)
  | _ :: _, [] => isFalse (fun h => List.noConfusion h)
  | (k, v) :: xs, (k2, v2) :: ys =>
      if hk : k = k2 then
        match jvalDecEq v v2 with
        | isFalse h1 => isFalse (by intro q; injection q with q1 q2; cases q1; exact h1 rfl)
        | isTrue h1 =>
            match jvalDecEqFields xs ys with
            | isTrue h2 => isTrue (by rw [hk, h1, h2])
            | isFalse h2 => isFalse (by intro q; injection q with q1 q2; exact h2 q2)
      else isFalse (by intro q; injection q with q1 q2; cases q1; exact hk rfl)
end

instance : DecidableEq JVal := jvalDecEq

/-- Decidable equality for `Except` results (not provided by core). -/
instance {e a : Type} [DecidableEq e] [DecidableEq a] : DecidableEq (Except e a) :=
  fun x y =>
    match x, y with
    | .ok v, .ok w =>
        if h : v = w then isTrue (by rw [h])
        else isFalse (by intro q; cases q; exact h rfl)
    | .error v, .error w =>
        if h : v = w then isTrue (by rw [h])
        else isFalse (by intro q; cases q; exact h rfl)
    | .ok _, .error _ => isFalse (fun h => Except.noConfusion h)
    | .error _, .ok _ => isFalse (fun h => Except.noConfusion h)

/-- First-match association lookup, the model of Python `dict` access
(Python dicts cannot hold duplicate keys, so first-match is exact). -/
def jLookup : List (String × JVal) → String → Option JVal
  | [], _ => none
  | (k, v) :: rest, key => if k = key then some v else jLookup rest key

/-- Python `d.get(key, dflt)` on a dict: the stored value when the key is
present (even when that value is `None`), otherwise the default. -/
def jGetD (fields : List (String × JVal)) (key : String) (dflt : JVal) : JVal :=
  (jLookup fields key).getD dflt

/-- Whether a dict has a key (`key in d` for dicts). -/
def hasKeyB (fields : List (String × JVal)) (key : String) : Bool :=
  (jLookup fields key).isSome

/-- Python `x.get(key, dflt)` where `x` is an arbitrary value: works on a
dict, raises `AttributeError` on anything else. -/
def pyAttrGetD : JVal → String → JVal → Except Unit JVal
  | .obj fields, key, dflt => .ok (jGetD fields key dflt)
  | _, _, _ => .error ()

/-- Python `x.get(key)` (default `None`). -/
def pyAttrGet (v : JVal) (key : String) : Except Unit JVal :=
  pyAttrGetD v key .null

/-- Python truthiness of a value. -/
def pyTruthy : JVal → Bool
  | .null => false
  | .bool b => b
  | .num n => n != 0
  | .str s => !s.isEmpty
  | .arr l => !l.isEmpty
  | .obj f => !f.isEmpty

/-- Python iteration over a value: a list yields its elements, a string its
characters (as one-character strings), a dict its keys; iterating anything
else raises `TypeError`. -/
def pyIter : JVal → Except Unit (List JVal)
  | .arr l => .ok l
  | .str s => .ok (s.toList.map (fun c => JVal.str (String.mk [c])))
  | .obj f => .ok (f.map (fun kv => JVal.str kv.1))
  | _ => .error ()

/-- Whether `pat` occurs as a contiguous run inside `hay` (Python
`pat in hay` for strings). -/
def charsContain (hay pat : List Char) : Bool :=
  match hay with
  | [] => pat.isEmpty
  | c :: t => pat.isPrefixOf (c :: t) || charsContain t pat

/-- Python substring test `pat in hay`. -/
def strContains (hay pat : String) : Bool :=
  charsContain hay.toList pat.toList

/-- Python `s.lower()` (the sources only use it on ASCII text). -/
def pyLower (s : String) : String :=
  String.mk (s.toList.map Char.toLower)

/-- The whitespace characters removed by Python `str.strip()`. -/
def pyWhitespace (c : Char) : Bool :=
  c = ' ' || c = '\t' || c = '\n' || c = '\r' || c = '\x0b' || c = '\x0c'

/-- Python `s.strip()`. -/
def pyStrip (s : String) : String :=
  String.mk (((s.toList.dropWhile pyWhitespace).reverse.dropWhile pyWhitespace).reverse)

/-- Escape for the model of Python `repr` on strings: backslashes and
single quotes (character code 39) are escaped.  The finer points of
Python's repr (quote choice, non-printable escapes) play no role in any
claim below. -/
def reprEscapeChar (c : Char) : String :=
  if c = '\\' then "\\\\"
  else if c.toNat = 39 then "\\" ++ String.mk [c]
  else String.mk [c]

/-- Escape a whole string for the repr model. -/
def reprEscape (s : String) : String :=
  String.join (s.toList.map reprEscapeChar)

mutual
/-- Model of Python `str()`/`repr()` on a JSON-like value, used by
`extract_text_from_adf` when the top-level content is neither `None`, a
string, nor a dict (`str(adf_content)`). -/
def pyRepr : JVal → String
  | .null => "None"
  | .bool true => "True"
  | .bool false => "False"
  | .num n => toString n
  | .str s => "'" ++ reprEscape s ++ "'"
  | .arr l => "[" ++ String.intercalate ", " (pyReprList l) ++ "]"
  | .obj f => "\x7b" ++ String.intercalate ", " (pyReprFields f) ++ "\x7d"

/-- repr of the elements of a list. -/
def pyReprList : List JVal → List String
  | [] => []
  | x :: xs => pyRepr x :: pyReprList xs

/-- repr of the entries of a dict. -/
def pyReprFields : List (String × JVal) → List String
  | [] => []
  | (k, v) :: rest => ("'" ++ reprEscape k ++ "': " ++ pyRepr v) :: pyReprFields rest
end

/-- Display `JVal` via the Python repr model (useful while exploring). -/
instance : Repr JVal := ⟨fun v _ => Std.Format.text (pyRepr v)⟩

/-- A value looked up in a dict is structurally smaller than the dict. -/
theorem jLookup_sizeOf {fields : List (String × JVal)} {key : String} {v : JVal}
    (h : jLookup fields key = some v) : sizeOf v < sizeOf (JVal.obj fields) := by
  induction fields with
  | nil => simp [jLookup] at h
  | cons kv rest ih =>
      obtain ⟨k, w⟩ := kv
      by_cases hk : k = key
      · simp [jLookup, hk] at h
        subst h
        simp
        omega
      · simp [jLookup, hk] at h
        have := ih h
        simp at this ⊢
        omega

/-- A defaulted `get` for a present key is structurally smaller than the
dict (the default `null` never being returned). -/
theorem jGetD_sizeOf {fields : List (String × JVal)} {key : String}
    (h : hasKeyB fields key = true) :
    sizeOf (jGetD fields key .null) < sizeOf (JVal.obj fields) := by
  unfold hasKeyB at h
  rcases hv : jLookup fields key with _ | v
  · rw [hv] at h
    simp at h
  · unfold jGetD
    rw [hv]
    exact jLookup_sizeOf hv

/-! ## Document-Text Extractor (`src/app/adf_parser.py`) -/

/-- `any(mark.get("type") == "strike" for mark in marks)` run over an
already materialised iteration: short-circuits at the first strike mark;
calling `.get` on a non-dict element raises. -/
def strikeScan : List JVal → Except Unit Bool
  | [] => .ok false
  | .obj f :: rest =>
      if jLookup f "type" = some (.str "strike") then .ok true
      else strikeScan rest
  | _ :: _ => .error ()

/-- The strikethrough test on a node's `marks` value (`adf_parser.py`
line 63): iterates the value and checks each mark's `type`. -/
def pyAnyStrike (marks : JVal) : Except Unit Bool :=
  match pyIter marks with
  | .error e => .error e
  | .ok l => strikeScan l

/-- The `"text" in node` step of `_extract_text_recursive` (lines 60-67):
append the node's text unless its marks contain a strikethrough mark. -/
def textStep (fields : List (String × JVal)) (acc : List JVal) :
    Except Unit (List JVal) :=
  match jLookup fields "text" with
  | none => .ok acc
  | some tv =>
      match pyAnyStrike (jGetD fields "marks" (.arr [])) with
      | .error e => .error e
      | .ok true => .ok acc
      | .ok false => .ok (acc ++ [tv])

/-- The `inlineCard`/`blockCard` step (lines 75-79): read
`node.get("attrs", \x7b\x7d).get("url")` and emit the URL when truthy. -/
def cardStep (fields : List (String × JVal)) (acc : List JVal) :
    Except Unit (List JVal) :=
  match pyAttrGet (jGetD fields "attrs" (.obj [])) "url" with
  | .error e => .error e
  | .ok url => if pyTruthy url then .ok (acc ++ [url]) else .ok acc

/-- Node types treated as paragraph-like (blank line appended after). -/
def isParaType (nt : Option JVal) : Bool :=
  nt = some (.str "paragraph") || nt = some (.str "heading") ||
    nt = some (.str "codeBlock")

/-- Node types treated as list containers. -/
def isListContainerType (nt : Option JVal) : Bool :=
  nt = some (.str "bulletList") || nt = some (.str "orderedList")

mutual
/-- `_extract_text_recursive(node, text_parts)` of `src/app/adf_parser.py`,
with the accumulator threaded explicitly; `.error ()` marks an uncaught
Python exception. -/
def extractRec : JVal → List JVal → Except Unit (List JVal)
  | .str s, acc => .ok (acc ++ [.str s])
  | .arr items, acc => extractRecList items acc
  | .obj fields, acc =>
      match textStep fields acc with
      | .error e => .error e
      | .ok acc1 =>
          let nt := jLookup fields "type"
          if nt = some (.str "inlineCard") || nt = some (.str "blockCard") then
            cardStep fields acc1
          else if isParaType nt then
            (if hasKeyB fields "content" then
              (match extractRec (jGetD fields "content" .null) acc1 with
               | .ok acc2 => .ok (acc2 ++ [.str ""])
               | .error e => .error e)
            else .ok (acc1 ++ [.str ""]))
          else if isListContainerType nt then
            (if hasKeyB fields "content" then
              (match extractRec (jGetD fields "content" .null) acc1 with
               | .ok acc2 => .ok (acc2 ++ [.str ""])
               | .error e => .error e)
            else .ok (acc1 ++ [.str ""]))
          else if nt = some (.str "listItem") then
            (if hasKeyB fields "content" then
              extractRec (jGetD fields "content" .null) (acc1 ++ [.str "• "])
            else .ok (acc1 ++ [.str "• "]))
          else
            (if hasKeyB fields "content" then
              extractRec (jGetD fields "content" .null) acc1
            else .ok acc1)
  | _, acc => .ok acc
termination_by node acc => sizeOf node
decreasing_by
  all_goals simp_wf
  all_goals first
    | (have h := jGetD_sizeOf (by assumption); simp at h ⊢; omega)
    | (simp; omega)
    | omega

/-- The `isinstance(node, list)` branch: recurse over the elements. -/
def extractRecList : List JVal → List JVal → Except Unit (List JVal)
  | [], acc => .ok acc
  | x :: xs, acc =>
      match extractRec x acc with
      | .error e => .error e
      | .ok acc1 => extractRecList xs acc1
termination_by items acc => sizeOf items
decreasing_by
  all_goals simp_wf
  all_goals omega
end

/-- `"\n".join(parts)`: every part has to be a string, otherwise Python
raises `TypeError`. -/
def pyJoinStrs : List JVal → Except Unit (List String)
  | [] => .ok []
  | .str s :: rest =>
      match pyJoinStrs rest with
      | .error e => .error e
      | .ok l => .ok (s :: l)
  | _ :: _ => .error ()

/-- `"\n".join(text_parts)`. -/
def pyJoinNewline (parts : List JVal) : Except Unit String :=
  match pyJoinStrs parts with
  | .error e => .error e
  | .ok l => .ok (String.intercalate "\n" l)

/-- `extract_text_from_adf(adf_content)` of `src/app/adf_parser.py`. -/
def extractTextFromAdf : JVal → Except Unit String
  | .null => .ok ""
  | .str s => .ok (pyStrip s)
  | .obj fields =>
      (match extractRec (.obj fields) [] with
       | .error e => .error e
       | .ok parts =>
           match pyJoinNewline parts with
           | .error e => .error e
           | .ok s => .ok (pyStrip s))
  | v => .ok (pyStrip (pyRepr v))

/-- Whether a node's `marks` value definitely contains a strikethrough
mark (the `has_strikethrough` test evaluating to `True` without
raising). -/
def isStruckB (fields : List (String × JVal)) : Bool :=
  match pyAnyStrike (jGetD fields "marks" (.arr [])) with
  | .ok true => true
  | _ => false

mutual
/-- Replace, throughout a rich-text tree, the `text` value of every node
whose marks contain a strikethrough mark by an arbitrary value `t`.  Only
positions the extractor traverses are rewritten (list elements and
`content` values), so extraction of the redacted tree exercises exactly
the same control flow. -/
def redactNode (t : JVal) : JVal → JVal
  | .arr items => .arr (redactList t items)
  | .obj fields => .obj (redactFields t (isStruckB fields) fields)
  | v => v
termination_by v => sizeOf v
decreasing_by
  all_goals (simp; try omega)

/-- Redact every element of a content list. -/
def redactList (t : JVal) : List JVal → List JVal
  | [] => []
  | x :: xs => redactNode t x :: redactList t xs
termination_by l => sizeOf l
decreasing_by
  all_goals (simp; try omega)

/-- Redact a node's field list: swap the `text` value for `t` when the
node is struck, recurse into `content`, keep everything else. -/
def redactFields (t : JVal) (struck : Bool) : List (String × JVal) →
    List (String × JVal)
  | [] => []
  | (k, v) :: rest =>
      (k, if k = "text" && struck then t
          else if k = "content" then redactNode t v else v) ::
        redactFields t struck rest
termination_by l => sizeOf l
decreasing_by
  all_goals (simp; try omega)
end

/-- Whether a value is a Python `str`. -/
def isStrB : JVal → Bool
  | .str _ => true
  | _ => false

/-- Whether a value is a dict. -/
def isObjB : JVal → Bool
  | .obj _ => true
  | _ => false

/-- A `marks` value on which the strikethrough test cannot raise under
this sufficient condition: a list whose entries are all dicts. -/
def marksOkB : JVal → Bool
  | .arr l => l.all isObjB
  | _ => false

/-- A sufficient well-formedness condition under which
`extract_text_from_adf` cannot raise: every node carrying `text` has a
string text value and a list-of-dicts `marks` value (or none), every
card node has a dict `attrs` whose `url` (if any) is a string or falsy,
and content is recursively well-formed. -/
def wfAdf : JVal → Bool
  | .arr items => items.attach.all (fun x => wfAdf x.1)
  | .obj fields =>
      (match jLookup fields "text" with
       | none => true
       | some tv => isStrB tv && marksOkB (jGetD fields "marks" (.arr []))) &&
      (let nt := jLookup fields "type"
       if nt = some (.str "inlineCard") || nt = some (.str "blockCard") then
         (match jGetD fields "attrs" (.obj []) with
          | .obj af =>
              (match jLookup af "url" with
               | none => true
               | some u => isStrB u || !pyTruthy u)
          | _ => false)
       else true) &&
      (if h : hasKeyB fields "content" then wfAdf (jGetD fields "content" .null)
       else true)
  | _ => true
termination_by v => sizeOf v
decreasing_by
  all_goals simp_wf
  all_goals first
    | (have h := jGetD_sizeOf (by assumption); simp at h ⊢; omega)
    | (have h := List.sizeOf_lt_of_mem (Subtype.prop (by assumption)); omega)

/-! ## Issue-Quality Analyzer (`src/app/description_analyzer.py`) -/

/-- `DescriptionAnalysis` dataclass. -/
structure DescriptionAnalysis where
  has_description : Bool
  is_weak : Bool
  warnings : List String
  char_count : Nat
  word_count : Nat
deriving DecidableEq, Repr

/-- Word accumulator for Python `s.split()`: collect maximal runs of
non-whitespace characters (`cur` holds the current run reversed). -/
def splitWsAux : List Char → List Char → List String
  | [], cur => if cur.isEmpty then [] else [String.mk cur.reverse]
  | c :: rest, cur =>
      if pyWhitespace c then
        if cur.isEmpty then splitWsAux rest []
        else String.mk cur.reverse :: splitWsAux rest []
      else splitWsAux rest (c :: cur)

/-- Python `s.split()`: split on whitespace runs, dropping empty chunks. -/
def pySplitWs (s : String) : List String :=
  splitWsAux s.toList []

/-- Acceptance-criteria indicator keywords (`analyze_description`). -/
def acKeywords : List String :=
  ["acceptance criteria", "ac:", "acceptance:", "should:", "must:",
   "given", "when", "then"]

/-- Testing indicator keywords (`analyze_description`). -/
def testKeywords : List String :=
  ["test", "verify", "validate", "ensure", "check", "expected", "behavior"]

/-- Warning text for a very short description. -/
def shortWarning (charCount : Nat) : String :=
  "Description is very short (" ++ toString charCount ++ " characters). " ++
    "More detail may be needed for comprehensive test planning."

/-- Warning text for a low word count. -/
def wordWarning (wordCount : Nat) : String :=
  "Description contains only " ++ toString wordCount ++ " words. " ++
    "Consider providing more context."

/-- Warning text when no acceptance criteria are detected. -/
def acWarning : String :=
  "No explicit acceptance criteria (AC) detected. " ++
    "You may need to provide testing context manually."

/-- Warning text when no testing keywords are detected. -/
def testWarning : String :=
  "No testing or validation keywords found. " ++
    "Consider what behaviors need verification."

/-- Warning text for a missing description. -/
def noDescWarning : String := "No description provided in Jira ticket"

/-- `analyze_description(description)` from
`src/app/description_analyzer.py`.  `none` models Python `None`. -/
def analyzeDescription (description : Option String) : DescriptionAnalysis :=
  match description with
  | none =>
      ⟨false, true, [noDescWarning], 0, 0⟩
  | some d =>
      if d.isEmpty || (pyStrip d).isEmpty then
        ⟨false, true, [noDescWarning], 0, 0⟩
      else
        let cleanText := pyStrip d
        let charCount := cleanText.length
        let wordCount := (pySplitWs cleanText).length
        let w1 : List String :=
          if charCount < 50 then [shortWarning charCount]
          else if wordCount < 10 then [wordWarning wordCount]
          else []
        let isWeak0 : Bool := charCount < 50 || (!(charCount < 50) && wordCount < 10)
        let lowerText := pyLower cleanText
        let hasAc := acKeywords.any (fun k => strContains lowerText k)
        let w2 : List String :=
          if !hasAc && charCount > 50 then [acWarning] else []
        let hasTestInfo := testKeywords.any (fun k => strContains lowerText k)
        let w3 : List String :=
          if !hasTestInfo && charCount > 50 then [testWarning] else []
        let warnings := w1 ++ w2 ++ w3
        ⟨true, isWeak0 || !warnings.isEmpty, warnings, charCount, wordCount⟩

/-! ## Comment Relevance Filter (`JiraClient._filter_testing_comments`) -/

/-- `JiraComment` dataclass.  `body` is the plain text extracted from ADF
(always a Python `str`); the remaining fields are raw JSON values
(the dataclass performs no runtime validation). -/
structure JiraComment where
  author : JVal
  body : String
  created : JVal
  updated : JVal
deriving DecidableEq, Repr

/-- Marker identifying comments created by the tool itself
(`BOT_MARKER` in `_filter_testing_comments`). -/
def botMarker : String := "🤖 Generated Test Plan"

/-- `TESTING_KEYWORDS` of `_filter_testing_comments`, verbatim. -/
def testingKeywords : List String :=
  ["test", "testing", "qa", "quality", "verify", "validation", "validate",
   "scenario", "edge case", "check", "reproduce", "steps to", "regression",
   "acceptance criteria", "expected behavior", "actual behavior", "bug",
   "defect", "issue", "problem", "fails", "passes", "coverage"]

/-- Whether a comment body matches the testing keyword set. -/
def isTestingBody (body : String) : Bool :=
  testingKeywords.any (fun k => strContains (pyLower body) k)

/-- `comments_data[-10:] if len(comments_data) > 10 else comments_data`. -/
def pyLastTen (l : List JVal) : List JVal :=
  if l.length > 10 then l.drop (l.length - 10) else l

/-- One iteration of the comment-parsing loop of
`_filter_testing_comments` (lines 388-421): given the accumulated
`(parsed_comments, testing_related)` pair, process one raw comment.
Comments with empty extracted text and comments containing `BOT_MARKER`
are skipped; malformed author/body data raises. -/
def commentStep (acc : List JiraComment × List JiraComment) (commentData : JVal) :
    Except Unit (List JiraComment × List JiraComment) :=
  match pyAttrGetD commentData "author" (.obj []) with
  | .error e => .error e
  | .ok authorInfo =>
      match (match authorInfo with
             | .obj f => .ok (jGetD f "displayName" (jGetD f "emailAddress" (.str "Unknown")))
             | _ => .error () : Except Unit JVal) with
      | .error e => .error e
      | .ok author =>
          match pyAttrGetD commentData "body" (.obj []) with
          | .error e => .error e
          | .ok bodyAdf =>
              match extractTextFromAdf bodyAdf with
              | .error e => .error e
              | .ok bodyText =>
                  if bodyText.isEmpty then .ok acc
                  else if strContains bodyText botMarker then .ok acc
                  else
                    match pyAttrGetD commentData "created" (.str "") with
                    | .error e => .error e
                    | .ok created =>
                        match pyAttrGet commentData "updated" with
                        | .error e => .error e
                        | .ok updated =>
                            let c : JiraComment :=
                              ⟨author, bodyText, created, updated⟩
                            let parsed := acc.1 ++ [c]
                            let testing :=
                              if isTestingBody bodyText then acc.2 ++ [c] else acc.2
                            .ok (parsed, testing)

/-- The whole parsing loop over the retained comments. -/
def commentLoop : List JVal → (List JiraComment × List JiraComment) →
    Except Unit (List JiraComment × List JiraComment)
  | [], acc => .ok acc
  | x :: xs, acc =>
      match commentStep acc x with
      | .error e => .error e
      | .ok acc1 => commentLoop xs acc1

/-- The final selection of `_filter_testing_comments` (lines 423-434). -/
def selectComments (parsed testing : List JiraComment) : List JiraComment :=
  if testing.length ≥ 3 then testing.take 3
  else if !testing.isEmpty then
    testing ++ ((parsed.filter (fun c => !(testing.contains c))).take (3 - testing.length))
  else parsed.take 3

/-- `JiraClient._filter_testing_comments(comments_data)` from
`src/app/jira_client.py`. -/
def filterTestingComments (commentsData : List JVal) : Except Unit (List JiraComment) :=
  match commentLoop (pyLastTen commentsData) ([], []) with
  | .error e => .error e
  | .ok (parsed, testing) => .ok (selectComments parsed testing)

/-! ## Relationship Resolver: linked issues
(`JiraClient._get_linked_issues`, `JiraClient._parse_linked_issue`) -/

/-- `LinkedIssue` dataclass.  Fields copied from raw JSON keep type `JVal`
(the dataclass performs no runtime validation); `description` is computed
plain text. -/
structure LinkedIssue where
  key : JVal
  summary : JVal
  description : Option String
  issue_type : JVal
  link_type : String
  status : JVal
deriving DecidableEq, Repr

/-- `LinkedIssues` dataclass. -/
structure LinkedIssues where
  blocks : List LinkedIssue
  blocked_by : List LinkedIssue
  causes : List LinkedIssue
  caused_by : List LinkedIssue
deriving DecidableEq, Repr

/-- `JiraClient._parse_linked_issue(issue_data, link_type)`
(`src/app/jira_client.py` lines 622-666).  Falsy issue data yields the
`"UNKNOWN"` placeholder; a truthy non-dict raises. -/
def parseLinkedIssue (issueData : JVal) (linkType : String) :
    Except Unit LinkedIssue :=
  if !pyTruthy issueData then
    .ok ⟨.str "UNKNOWN", .str "Unknown Issue (malformed link data)", none,
         .str "Unknown", linkType, .null⟩
  else
    match pyAttrGetD issueData "fields" (.obj []) with
    | .error e => .error e
    | .ok fieldsVal =>
        match pyAttrGet fieldsVal "description" with
        | .error e => .error e
        | .ok descAdf =>
            let desc : Option String :=
              if pyTruthy descAdf then
                match extractTextFromAdf descAdf with
                | .error _ => none
                | .ok s =>
                    if !s.isEmpty && s.length > 500 then some (s.take 500 ++ "...")
                    else some s
              else none
            match pyAttrGetD issueData "key" (.str "UNKNOWN") with
            | .error e => .error e
            | .ok key =>
                match pyAttrGetD fieldsVal "summary" (.str "Unknown") with
                | .error e => .error e
                | .ok summary =>
                    match pyAttrGetD fieldsVal "issuetype" (.obj []) with
                    | .error e => .error e
                    | .ok itype =>
                        match pyAttrGetD itype "name" (.str "Unknown") with
                        | .error e => .error e
                        | .ok itypeName =>
                            match pyAttrGetD fieldsVal "status" (.obj []) with
                            | .error e => .error e
                            | .ok statusVal =>
                                match pyAttrGet statusVal "name" with
                                | .error e => .error e
                                | .ok statusName =>
                                    .ok ⟨key, summary, desc, itypeName,
                                         linkType, statusName⟩

/-- The four accumulating lists of the link-classification loop
(`blocks_list`, `blocked_by_list`, `causes_list`, `caused_by_list`). -/
structure LinkAcc where
  blocks : List LinkedIssue
  blocked_by : List LinkedIssue
  causes : List LinkedIssue
  caused_by : List LinkedIssue
deriving DecidableEq, Repr

/-- One iteration of the link loop of `_get_linked_issues`
(lines 576-601). -/
def classifyStep (acc : LinkAcc) (link : JVal) : Except Unit LinkAcc :=
  match pyAttrGetD link "type" (.obj []) with
  | .error e => .error e
  | .ok linkTypeData =>
      match pyAttrGetD linkTypeData "name" (.str "") with
      | .error e => .error e
      | .ok nameVal =>
          match (match nameVal with
                 | .str s => .ok (pyLower s)
                 | _ => .error () : Except Unit String) with
          | .error e => .error e
          | .ok linkName =>
              match pyAttrGet link "inwardIssue" with
              | .error e => .error e
              | .ok inwardIssue =>
                  match pyAttrGet link "outwardIssue" with
                  | .error e => .error e
                  | .ok outwardIssue =>
                      if strContains linkName "block" then
                        match (if pyTruthy outwardIssue then
                                 (parseLinkedIssue outwardIssue "blocks").map
                                   (fun li => { acc with blocks := acc.blocks ++ [li] })
                               else .ok acc) with
                        | .error e => .error e
                        | .ok acc1 =>
                            if pyTruthy inwardIssue then
                              (parseLinkedIssue inwardIssue "is_blocked_by").map
                                (fun li => { acc1 with blocked_by := acc1.blocked_by ++ [li] })
                            else .ok acc1
                      else if strContains linkName "cause" then
                        match (if pyTruthy outwardIssue then
                                 (parseLinkedIssue outwardIssue "causes").map
                                   (fun li => { acc with causes := acc.causes ++ [li] })
                               else .ok acc) with
                        | .error e => .error e
                        | .ok acc1 =>
                            if pyTruthy inwardIssue then
                              (parseLinkedIssue inwardIssue "is_caused_by").map
                                (fun li => { acc1 with caused_by := acc1.caused_by ++ [li] })
                            else .ok acc1
                      else .ok acc

/-- The classification loop over all raw links. -/
def classifyLoop : List JVal → LinkAcc → Except Unit LinkAcc
  | [], acc => .ok acc
  | l :: ls, acc =>
      match classifyStep acc l with
      | .error e => .error e
      | .ok acc1 => classifyLoop ls acc1

/-- `MAX_LINKS_PER_TYPE`. -/
def maxLinksPerType : Nat := 5

/-- `JiraClient._get_linked_issues(issue_links_data)`
(`src/app/jira_client.py` lines 551-620). -/
def getLinkedIssues (issueLinksData : List JVal) : Except Unit (Option LinkedIssues) :=
  if issueLinksData.isEmpty then .ok none
  else
    match classifyLoop issueLinksData ⟨[], [], [], []⟩ with
    | .error e => .error e
    | .ok acc =>
        let blocksL := acc.blocks.take maxLinksPerType
        let blockedByL := acc.blocked_by.take maxLinksPerType
        let causesL := acc.causes.take maxLinksPerType
        let causedByL := acc.caused_by.take maxLinksPerType
        if blocksL.isEmpty && blockedByL.isEmpty && causesL.isEmpty &&
            causedByL.isEmpty then
          .ok none
        else
          .ok (some ⟨blocksL, blockedByL, causesL, causedByL⟩)

/-! ## Design-Context Fetcher (`FigmaClient._extract_frames`) -/

/-- `FigmaFrame` dataclass (fields kept as raw JSON values; `description`
is never set by `_extract_frames` and stays `None`). -/
structure FigmaFrame where
  name : JVal
  type : JVal
  node_id : JVal
  description : JVal
deriving DecidableEq, Repr

/-- Python `children[:50]`: slices a list (first 50 elements) or a string
(first 50 characters, iterated as one-character strings); slicing any
other value raises `TypeError`. -/
def pySlice50 : JVal → Except Unit (List JVal)
  | .arr l => .ok (l.take 50)
  | .str s => .ok ((s.toList.take 50).map (fun c => JVal.str (String.mk [c])))
  | _ => .error ()

/-- The frame/page/component type allow-list test
(`node_type in ["FRAME", "COMPONENT", "PAGE", "CANVAS"]`). -/
def isFrameType (nodeType : JVal) : Bool :=
  nodeType = .str "FRAME" || nodeType = .str "COMPONENT" ||
    nodeType = .str "PAGE" || nodeType = .str "CANVAS"

mutual
/-- `FigmaClient._extract_frames(node, depth, max_depth)` from
`src/app/figma_client.py` (lines 161-198).  The depth guard runs before
the node is inspected, so a malformed node deeper than `max_depth` does
not raise. -/
def extractFrames (node : JVal) (depth maxDepth : Nat) :
    Except Unit (List FigmaFrame) :=
  if depth > maxDepth then .ok []
  else
    match node with
    | .obj fields =>
        let nodeType := jGetD fields "type" .null
        let nodeName := jGetD fields "name" (.str "Unnamed")
        let nodeId := jGetD fields "id" .null
        let base : List FigmaFrame :=
          if isFrameType nodeType then [⟨nodeName, nodeType, nodeId, .null⟩]
          else []
        match pySlice50 (jGetD fields "children" (.arr [])) with
        | .error e => .error e
        | .ok kids =>
            match extractFramesList kids (depth + 1) maxDepth with
            | .error e => .error e
            | .ok rest => .ok ((base ++ rest).take 50)
    | _ => .error ()
termination_by (maxDepth + 1 - depth, 0)
decreasing_by
  simp_wf
  apply Prod.Lex.left
  omega

/-- The `for child in children[:50]` loop, concatenating child results. -/
def extractFramesList (nodes : List JVal) (depth maxDepth : Nat) :
    Except Unit (List FigmaFrame) :=
  match nodes with
  | [] => .ok []
  | x :: xs =>
      match extractFrames x depth maxDepth with
      | .error e => .error e
      | .ok a =>
          match extractFramesList xs depth maxDepth with
          | .error e => .error e
          | .ok b => .ok (a ++ b)
termination_by (maxDepth + 1 - depth, nodes.length + 1)
decreasing_by
  · simp_wf
    apply Prod.Lex.right
    omega
  · simp_wf
    apply Prod.Lex.right
    omega
end

mutual
/-- Truncation of a design node tree to the part `_extract_frames` can
possibly visit: `fuel` is the number of remaining visitable levels
(`max_depth + 1 - depth`); at fuel `0` the node is replaced wholesale (it
is never inspected), otherwise only the first 50 children survive, each
truncated one level shallower. -/
def truncNode : Nat → JVal → JVal
  | 0, _ => .null
  | Nat.succ f, .obj fields => .obj (truncFields f fields)
  | Nat.succ _, v => v
termination_by f v => (f, sizeOf v)
decreasing_by
  apply Prod.Lex.left
  omega

/-- Truncate the `children` entry of a node's field list. -/
def truncFields (f : Nat) : List (String × JVal) → List (String × JVal)
  | [] => []
  | (k, v) :: rest =>
      (k, if k = "children" then truncChildren f v else v) :: truncFields f rest
termination_by l => (f, sizeOf l)
decreasing_by
  all_goals (apply Prod.Lex.right; simp; try omega)

/-- Truncate a `children` value: keep the first 50 entries of a list (each
truncated), the first 50 characters of a string, anything else intact. -/
def truncChildren (f : Nat) : JVal → JVal
  | .arr l => .arr ((truncList f l).take 50)
  | .str s => .str (String.mk (s.toList.take 50))
  | v => v
termination_by v => (f, sizeOf v)
decreasing_by
  all_goals (apply Prod.Lex.right; simp; try omega)

/-- Truncate every element of a list of child nodes. -/
def truncList (f : Nat) : List JVal → List JVal
  | [] => []
  | x :: xs => truncNode f x :: truncList f xs
termination_by l => (f, sizeOf l)
decreasing_by
  all_goals (apply Prod.Lex.right; simp; try omega)
end

/-! ## Data models (`src/app/models.py`)

The Python models are plain dataclasses without runtime validation, so a
field filled directly from JSON keeps type `JVal`; fields computed by the
client code get a precise Lean type. -/

/-- `Attachment` dataclass. -/
structure Attachment where
  filename : JVal
  mime_type : String
  size : JVal
  url : JVal
  thumbnail_url : JVal
deriving DecidableEq, Repr

/-- `Commit` dataclass. -/
structure Commit where
  message : JVal
  author : JVal
  date : JVal
  url : JVal
deriving DecidableEq, Repr

/-- `FileChange` dataclass (values copied from GitHub enrichment data). -/
structure FileChange where
  filename : String
  status : String
  additions : Int
  deletions : Int
  changes : Int
  patch : Option String
deriving DecidableEq, Repr

/-- `PRComment` dataclass (values copied from GitHub enrichment data). -/
structure PRComment where
  author : String
  body : String
  created_at : String
  comment_type : String
deriving DecidableEq, Repr

/-- `PullRequest` dataclass. -/
structure PullRequest where
  title : JVal
  status : JVal
  url : JVal
  source_branch : JVal
  destination_branch : JVal
  repository : JVal
  github_description : Option String
  files_changed : Option (List FileChange)
  total_additions : Option Int
  total_deletions : Option Int
  comments : Option (List PRComment)
deriving DecidableEq, Repr

/-- `RepositoryContext` dataclass. -/
structure RepositoryContext where
  readme_content : Option String
  test_examples : Option (List String)
  testid_reference : Option String
  screen_guide : Option String
deriving DecidableEq, Repr

/-- `FigmaComponent` dataclass. -/
structure FigmaComponent where
  name : JVal
  description : JVal
  component_set_name : JVal
deriving DecidableEq, Repr

/-- `FigmaContext` dataclass. -/
structure FigmaContext where
  file_name : JVal
  file_key : String
  last_modified : JVal
  frames : Option (List FigmaFrame)
  components : Option (List FigmaComponent)
  version : JVal
deriving DecidableEq, Repr

/-- `DevelopmentInfo` dataclass. -/
structure DevelopmentInfo where
  commits : List Commit
  pull_requests : List PullRequest
  branches : List JVal
  repository_context : Option RepositoryContext
  figma_context : Option FigmaContext
deriving DecidableEq, Repr

/-- `ParentIssue` dataclass. -/
structure ParentIssue where
  key : JVal
  summary : JVal
  description : Option String
  issue_type : JVal
  labels : JVal
  attachments : Option (List Attachment)
  figma_context : Option FigmaContext
deriving DecidableEq, Repr

/-- `JiraIssue` dataclass. -/
structure JiraIssue where
  key : JVal
  summary : JVal
  description : Option String
  description_analysis : DescriptionAnalysis
  labels : JVal
  issue_type : JVal
  development_info : Option DevelopmentInfo
  attachments : Option (List Attachment)
  comments : Option (List JiraComment)
  parent : Option ParentIssue
  linked_issues : Option LinkedIssues
deriving DecidableEq, Repr

/-! ## Image attachments (`JiraClient._extract_image_attachments`) -/

/-- `IMAGE_MIME_TYPES`. -/
def imageMimeTypes : List String :=
  ["image/png", "image/jpeg", "image/jpg", "image/gif"]

/-- `MAX_IMAGE_SIZE` (20 MB). -/
def maxImageSize : Int := 20 * 1024 * 1024

/-- Python `size <= bound`: defined for ints and bools (bools are ints in
Python), raises `TypeError` for anything else. -/
def pyLeInt (v : JVal) (bound : Int) : Except Unit Bool :=
  match v with
  | .num n => .ok (decide (n ≤ bound))
  | .bool b => .ok (decide ((if b then (1 : Int) else 0) ≤ bound))
  | _ => .error ()

/-- One iteration of the attachment loop of
`_extract_image_attachments` (lines 334-348). -/
def attachmentStep (a : JVal) : Except Unit (Option Attachment) :=
  match pyAttrGetD a "mimeType" (.str "") with
  | .error e => .error e
  | .ok mimeRaw =>
      match (match mimeRaw with
             | .str s => .ok (pyLower s)
             | _ => .error () : Except Unit String) with
      | .error e => .error e
      | .ok mimeType =>
          match pyAttrGetD a "size" (.num 0) with
          | .error e => .error e
          | .ok size =>
              if imageMimeTypes.contains mimeType then
                match pyLeInt size maxImageSize with
                | .error e => .error e
                | .ok true =>
                    match pyAttrGetD a "filename" (.str "") with
                    | .error e => .error e
                    | .ok filename =>
                        match pyAttrGetD a "content" (.str "") with
                        | .error e => .error e
                        | .ok url =>
                            match pyAttrGet a "thumbnail" with
                            | .error e => .error e
                            | .ok thumb =>
                                .ok (some ⟨filename, mimeType, size, url, thumb⟩)
                | .ok false => .ok none
              else .ok none

/-- The attachment loop over an iterated value. -/
def attachmentLoop : List JVal → Except Unit (List Attachment)
  | [] => .ok []
  | a :: rest =>
      match attachmentStep a with
      | .error e => .error e
      | .ok r =>
          match attachmentLoop rest with
          | .error e => .error e
          | .ok l => .ok ((r.toList) ++ l)

/-- `JiraClient._extract_image_attachments(attachments_data)`
(`src/app/jira_client.py` lines 328-351): keep image attachments within
the size limit, truncated to the first 3. -/
def extractImageAttachments (attachmentsData : JVal) : Except Unit (List Attachment) :=
  match pyIter attachmentsData with
  | .error e => .error e
  | .ok items =>
      match attachmentLoop items with
      | .error e => .error e
      | .ok l => .ok (l.take 3)

/-! ## Resource merging (`src/app/resource_utils.py`) -/

/-- The truthy attachment list of an issue (`if issue.attachments:`
treats both `None` and `[]` as absent). -/
def childAtts (issue : JiraIssue) : List Attachment :=
  match issue.attachments with
  | some l => l
  | none => []

/-- The truthy attachment list of the parent, if any. -/
def parentAtts (issue : JiraIssue) : List Attachment :=
  match issue.parent with
  | some p =>
      (match p.attachments with
       | some l => l
       | none => [])
  | none => []

/-- `get_all_images(issue, max_images)` from `src/app/resource_utils.py`
(lines 44-76): up to 2 child images first, then parent images while
slots remain.  The Python guards are truthiness tests
(`if issue.attachments:` is false for both `None` and `[]`;
`if issue.parent and issue.parent.attachments:` likewise, a present
`ParentIssue` dataclass always being truthy), so they are exactly the
non-emptiness of `childAtts`/`parentAtts`. -/
def getAllImages (issue : JiraIssue) (maxImages : Nat) : List Attachment :=
  let atts := childAtts issue
  let images := if !atts.isEmpty then atts.take (min 2 atts.length) else []
  let patts := parentAtts issue
  if !patts.isEmpty then
    let remainingSlots := maxImages - images.length
    if remainingSlots > 0 then images ++ patts.take (min remainingSlots patts.length)
    else images
  else images

/-! ## Figma URL extraction (`JiraClient._extract_figma_url`)

Model of `re.search` for the pattern
`https?://(?:www\.)?figma\.com/(file|design|proto)/[A-Za-z0-9]+[^\s]*`:
leftmost match, greedy suffix.  Because `[^\s]*` subsumes `[A-Za-z0-9]`,
the matched tail is the maximal whitespace-free run whose first character
is alphanumeric. -/

/-- ASCII alphanumeric test (`[A-Za-z0-9]`). -/
def alnumChar (c : Char) : Bool :=
  (c ≥ 'A' && c ≤ 'Z') || (c ≥ 'a' && c ≤ 'z') || (c ≥ '0' && c ≤ '9')

/-- Strip a literal prefix, or fail. -/
def stripPre (pre cs : List Char) : Option (List Char) :=
  if pre.isPrefixOf cs then some (cs.drop pre.length) else none

/-- Try to match the Figma URL pattern at the start of `cs`, returning the
matched text (`match.group(0)`). -/
def matchFigmaAt (cs : List Char) : Option String :=
  match stripPre "http".toList cs with
  | none => none
  | some cs1 =>
      match (match stripPre "s://".toList cs1 with
             | some t => some ("s://", t)
             | none => (stripPre "://".toList cs1).map (fun t => ("://", t))) with
      | none => none
      | some (mid1, cs2) =>
          let www := match stripPre "www.".toList cs2 with
                     | some t => ("www.", t)
                     | none => ("", cs2)
          match stripPre "figma.com/".toList www.2 with
          | none => none
          | some cs4 =>
              match (match stripPre "file/".toList cs4 with
                     | some t => some ("file/", t)
                     | none =>
                         match stripPre "design/".toList cs4 with
                         | some t => some ("design/", t)
                         | none => (stripPre "proto/".toList cs4).map
                             (fun t => ("proto/", t))) with
              | none => none
              | some (kind, cs5) =>
                  match cs5 with
                  | c :: _ =>
                      if alnumChar c then
                        some ("http" ++ mid1 ++ www.1 ++ "figma.com/" ++ kind ++
                          String.mk (cs5.takeWhile (fun d => !pyWhitespace d)))
                      else none
                  | [] => none

/-- Scan all start positions left to right (`re.search`). -/
def figmaSearch : List Char → Option String
  | [] => none
  | c :: rest =>
      match matchFigmaAt (c :: rest) with
      | some m => some m
      | none => figmaSearch rest

/-- `JiraClient._extract_figma_url(description)`. -/
def extractFigmaUrl (description : String) : Option String :=
  figmaSearch description.toList

/-! ## Development-Activity Resolver (`JiraClient._get_development_info`)
and the network `World` -/

/-- The slice of `github_client.PRDetails` consumed by
`_extract_pull_requests` when enriching a pull request. -/
structure GhPrDetails where
  description : Option String
  files_changed : List FileChange
  total_additions : Int
  total_deletions : Int
  comments : List PRComment
deriving DecidableEq, Repr

/-- All external inputs of one `get_issue` call.  HTTP responses are
`Except Unit (status × parsed body)` with `.error ()` standing for a
transport-level exception; bodies arrive already parsed (a response body
that is not JSON is outside the model).  Sub-clients whose failures the
call sites fully absorb (`GitHubClient.fetch_pr_details`,
`GitHubClient.fetch_repository_context`, `FigmaClient.fetch_file_context`,
`JiraClient._get_parent_issue`) are oracles returning `Option`: `none`
covers both an internal soft failure and a caught exception, which are
observably identical at these call sites. -/
structure World where
  primary : Except Unit (Nat × JVal)
  devSummary : JVal → Except Unit (Nat × JVal)
  devDetail : JVal → String → String → Except Unit (Nat × JVal)
  githubToken : Bool
  figmaToken : Bool
  ghPrDetails : String → Option GhPrDetails
  ghRepoContext : String → Option RepositoryContext
  figmaFetch : String → Option FigmaContext
  commentsResp : Except Unit (Nat × JVal)
  parentFetch : String → Option ParentIssue

/-- Map a list through an exception-capable step, stopping at the first
error (the semantics of a Python `for` loop building a list). -/
def exList {α β : Type} (f : α → Except Unit β) : List α → Except Unit (List β)
  | [] => .ok []
  | x :: xs =>
      match f x with
      | .error e => .error e
      | .ok y =>
          match exList f xs with
          | .error e => .error e
          | .ok ys => .ok (y :: ys)

/-- Python `container[key]` for a string key: dict lookup
(`KeyError` when absent), `TypeError` on anything else. -/
def pyIndex (container : JVal) (key : String) : Except Unit JVal :=
  match container with
  | .obj f =>
      (match jLookup f key with
       | some v => .ok v
       | none => .error ())
  | _ => .error ()

/-- Python `key in container`: dict key test, substring test on strings,
membership on lists; `TypeError` otherwise. -/
def pyContains (container : JVal) (key : String) : Except Unit Bool :=
  match container with
  | .obj f => .ok (hasKeyB f key)
  | .str s => .ok (strContains s key)
  | .arr l => .ok (l.contains (.str key))
  | _ => .error ()

/-- Python `d.keys()` materialised as a list of strings. -/
def pyKeys (v : JVal) : Except Unit (List String) :=
  match v with
  | .obj f => .ok (f.map Prod.fst)
  | _ => .error ()

/-- `JiraClient._extract_commits(repo_data)` (lines 199-218). -/
def extractCommits (repoData : JVal) : Except Unit (List Commit) := do
  let details ← pyIter (← pyAttrGetD repoData "detail" (.arr []))
  let nested ← exList (fun detail => do
      let repos ← pyIter (← pyAttrGetD detail "repositories" (.arr []))
      let perRepo ← exList (fun repo => do
          let commits ← pyIter (← pyAttrGetD repo "commits" (.arr []))
          exList (fun commit => do
              let message ← pyAttrGetD commit "message" (.str "")
              let authorObj ← pyAttrGetD commit "author" (.obj [])
              let author ← pyAttrGet authorObj "name"
              let date ← pyAttrGet commit "authorTimestamp"
              let url ← pyAttrGet commit "url"
              pure (⟨message, author, date, url⟩ : Commit)) commits) repos
      pure perRepo.flatten) details
  pure nested.flatten

/-- `JiraClient._extract_branches(repo_data)` (lines 220-234): collect the
truthy `name` of every branch. -/
def extractBranches (repoData : JVal) : Except Unit (List JVal) := do
  let details ← pyIter (← pyAttrGetD repoData "detail" (.arr []))
  let nested ← exList (fun detail => do
      let repos ← pyIter (← pyAttrGetD detail "repositories" (.arr []))
      let perRepo ← exList (fun repo => do
          let branches ← pyIter (← pyAttrGetD repo "branches" (.arr []))
          let names ← exList (fun branch => do
              let name ← pyAttrGet branch "name"
              pure (if pyTruthy name then some name else none)) branches
          pure names.reduceOption) repos
      pure perRepo.flatten) details
  pure nested.flatten

/-- `JiraClient._extract_pull_requests(pr_data)` (lines 236-298), with the
GitHub enrichment driven by the world's `ghPrDetails` oracle (the
exceptions of the enrichment call are caught at this call site; a
non-string truthy URL raises on the `in` test, inside the resolver's
`try`). -/
def extractPullRequests (w : World) (prData : JVal) : Except Unit (List PullRequest) := do
  let details ← pyIter (← pyAttrGetD prData "detail" (.arr []))
  let perDetail ← exList (fun detail => do
      let prs ← pyIter (← pyAttrGetD detail "pullRequests" (.arr []))
      exList (fun pr => do
          let prUrl ← pyAttrGet pr "url"
          let title ← pyAttrGetD pr "name" (.str "")
          let status ← pyAttrGetD pr "status" (.str "UNKNOWN")
          let srcObj ← pyAttrGetD pr "source" (.obj [])
          let src ← pyAttrGet srcObj "branch"
          let dstObj ← pyAttrGetD pr "destination" (.obj [])
          let dst ← pyAttrGet dstObj "branch"
          let base : PullRequest :=
            ⟨title, status, prUrl, src, dst, .null, none, none, none, none, none⟩
          if w.githubToken && pyTruthy prUrl then
            match prUrl with
            | .str s =>
                if strContains s "github.com" then
                  match w.ghPrDetails s with
                  | some gh =>
                      pure { base with
                        github_description := gh.description,
                        files_changed :=
                          some (gh.files_changed.map (fun fc => { fc with patch := none })),
                        total_additions := some gh.total_additions,
                        total_deletions := some gh.total_deletions,
                        comments := some gh.comments }
                  | none => pure base
                else pure base
            | _ => .error ()
          else pure base) prs) details
  pure perDetail.flatten

/-- Deduplicating append used while building `application_types`
(`if app_type not in application_types: append`). -/
def dedupAppend (acc : List String) : List String → List String
  | [] => acc
  | k :: ks => dedupAppend (if acc.contains k then acc else acc ++ [k]) ks

/-- The `application_types` collection loop of `_get_development_info`
(lines 119-128) over the data types `repository`, `pullrequest`,
`branch`. -/
def collectAppTypes (summaryInfo : JVal) : List String → List String →
    Except Unit (List String)
  | [], acc => .ok acc
  | dt :: rest, acc => do
      let present ← pyContains summaryInfo dt
      if present then do
        let dtInfo ← pyIndex summaryInfo dt
        let byInstance ← pyAttrGetD dtInfo "byInstanceType" (.obj [])
        let keys ← pyKeys byInstance
        collectAppTypes summaryInfo rest (dedupAppend acc keys)
      else collectAppTypes summaryInfo rest acc

/-- The per-application-type detail loop of `_get_development_info`
(lines 131-166), accumulating commits, pull requests and branches.

Python iterates `set(application_types)`, whose order is unspecified; the
embedding iterates in first-appearance order (same elements), and no
claim below depends on the order. -/
def appTypeLoop (w : World) (issueId : JVal) :
    List String → (List Commit × List PullRequest × List JVal) →
    Except Unit (List Commit × List PullRequest × List JVal)
  | [], acc => .ok acc
  | a :: rest, (cs, ps, bs) => do
      let (st, repoData) ← w.devDetail issueId a "repository"
      let (cs1, bs1) ←
        if st = 200 then do
          let cs' ← extractCommits repoData
          let bs' ← extractBranches repoData
          pure (cs ++ cs', bs ++ bs')
        else pure (cs, bs)
      let (st2, prData) ← w.devDetail issueId a "pullrequest"
      let ps1 ←
        if st2 = 200 then do
          let ps' ← extractPullRequests w prData
          pure (ps ++ ps')
        else pure ps
      appTypeLoop w issueId rest (cs1, ps1, bs1)

/-- The body of the `try` block of `_get_development_info` (lines
105-167): `.error ()` is an exception inside the `try` (absorbed by the
caller into "no activity"), `.ok none` is the early `return None` on a
non-200 summary, `.ok (some triple)` a completed loop. -/
def collectDevData (w : World) (issueId : JVal) :
    Except Unit (Option (List Commit × List PullRequest × List JVal)) :=
  match w.devSummary issueId with
  | .error _ => .error ()
  | .ok (status, summaryData) =>
      if status ≠ 200 then .ok none
      else
        match (do
            let summaryInfo ← pyAttrGetD summaryData "summary" (.obj [])
            let appTypes ← collectAppTypes summaryInfo
              ["repository", "pullrequest", "branch"] []
            appTypeLoop w issueId appTypes ([], [], []) :
            Except Unit (List Commit × List PullRequest × List JVal)) with
        | .error e => .error e
        | .ok res => .ok (some res)

/-- The repository-context scan of `_get_development_info` (lines
179-190): walk the pull requests, fetch at most one repository context
from the first GitHub URL that yields one; the fetch's own failures are
caught, but the `"github.com" in pr.url` test on a truthy non-string URL
raises (outside any `try`). -/
def repoContextScan (w : World) : List PullRequest →
    Except Unit (Option RepositoryContext)
  | [] => .ok none
  | pr :: rest =>
      if pyTruthy pr.url then
        match pr.url with
        | .str s =>
            if strContains s "github.com" then
              match w.ghRepoContext s with
              | some rc => .ok (some rc)
              | none => repoContextScan w rest
            else repoContextScan w rest
        | _ => .error ()
      else repoContextScan w rest

/-- `JiraClient._get_development_info(issue_id, issue_key)` (lines
84-197).  Exceptions inside the `try` and a non-200 summary both give
"no activity" (`.ok none`); an all-empty collection gives `.ok none`
before any repository-context fetch; an exception in the
repository-context section propagates (`.error`). -/
def getDevelopmentInfo (w : World) (issueId : JVal) :
    Except Unit (Option DevelopmentInfo) :=
  match collectDevData w issueId with
  | .error _ => .ok none
  | .ok none => .ok none
  | .ok (some (cs, ps, bs)) =>
      if cs.isEmpty && ps.isEmpty && bs.isEmpty then .ok none
      else
        match (if w.githubToken then repoContextScan w ps else .ok none) with
        | .error e => .error e
        | .ok repoCtx => .ok (some ⟨cs, ps, bs, repoCtx, none⟩)

/-! ## Aggregation Orchestrator (`JiraClient.get_issue`) -/

/-- The caller-visible errors of `get_issue`: the dedicated exception
classes of `src/app/jira_client.py` plus `httpStatus` for
`raise_for_status` and `pyExc` for an uncaught Python exception on
malformed data. -/
inductive JiraError where
  | connection : JiraError
  | notFound : JiraError
  | auth (statusCode : Nat) : JiraError
  | httpStatus (statusCode : Nat) : JiraError
  | pyExc : JiraError
deriving DecidableEq, Repr

/-- Lift an uncaught Python exception into the `get_issue` error type. -/
def liftE {α : Type} : Except Unit α → Except JiraError α
  | .error _ => .error .pyExc
  | .ok a => .ok a

/-- Everything `get_issue` derives from the primary issue response before
any enrichment (lines 668-707). -/
structure PrimaryParsed where
  data : JVal
  fieldsVal : JVal
  summary : JVal
  descriptionStr : String
  analysis : DescriptionAnalysis
  labels : JVal
  issueType : JVal
  issueId : JVal
deriving DecidableEq, Repr

/-- The primary fetch and field extraction of `get_issue` (lines 668-707):
the only part of the pipeline allowed to raise the dedicated errors. -/
def parsePrimary (w : World) : Except JiraError PrimaryParsed :=
  match w.primary with
  | .error _ => .error .connection
  | .ok (status, data) =>
      if status = 404 then .error .notFound
      else if status = 401 then .error (.auth 401)
      else if status = 403 then .error (.auth 403)
      else if status ≥ 400 then .error (.httpStatus status)
      else
        match liftE (pyAttrGetD data "fields" (.obj [])) with
        | .error e => .error e
        | .ok fieldsVal =>
            match liftE (pyAttrGet fieldsVal "summary") with
            | .error e => .error e
            | .ok summaryRaw =>
                let summary := if pyTruthy summaryRaw then summaryRaw else .str ""
                match liftE (pyAttrGet fieldsVal "description") with
                | .error e => .error e
                | .ok descriptionVal =>
                    match liftE (pyAttrGetD fieldsVal "labels" (.arr [])) with
                    | .error e => .error e
                    | .ok labels =>
                        match liftE (pyAttrGetD fieldsVal "issuetype" (.obj [])) with
                        | .error e => .error e
                        | .ok itObj =>
                            match liftE (pyAttrGetD itObj "name" (.str "Unknown")) with
                            | .error e => .error e
                            | .ok issueType =>
                                match liftE (extractTextFromAdf descriptionVal) with
                                | .error e => .error e
                                | .ok descriptionStr =>
                                    let analysis :=
                                      analyzeDescription (some descriptionStr)
                                    match liftE (pyIndex data "id") with
                                    | .error e => .error e
                                    | .ok issueId =>
                                        .ok ⟨data, fieldsVal, summary,
                                             descriptionStr, analysis, labels,
                                             issueType, issueId⟩

/-- The Figma enrichment of `get_issue` (lines 710-731): when the
description is truthy and a Figma token is configured, look for a Figma
URL and, if the (failure-absorbing) fetch yields a context, graft it onto
the development info — creating a fresh `DevelopmentInfo` when the
resolver produced none. -/
def figmaMergeDev (w : World) (descriptionStr : String)
    (dev : Option DevelopmentInfo) : Option DevelopmentInfo :=
  if !descriptionStr.isEmpty && w.figmaToken then
    match extractFigmaUrl descriptionStr with
    | some url =>
        (match w.figmaFetch url with
         | some fc =>
             (match dev with
              | some d => some { d with figma_context := some fc }
              | none => some ⟨[], [], [], none, some fc⟩)
         | none => dev)
    | none => dev
  else dev

/-- `JiraClient.get_comments(issue_key)` (lines 907-944): all failure
modes and error statuses raise; on success the body's `comments` entry is
returned as-is. -/
def getComments (w : World) : Except Unit JVal :=
  match w.commentsResp with
  | .error _ => .error ()
  | .ok (status, body) =>
      if status = 404 || status = 401 || status = 403 || status ≥ 400 then
        .error ()
      else pyAttrGetD body "comments" (.arr [])

/-- The comment block of `get_issue` (lines 737-746): fetch and filter,
absorbing every exception; an empty filtered list is recorded as `None`
(`comments=filtered_comments if filtered_comments else None`). -/
def commentsBlock (w : World) : Option (List JiraComment) :=
  match getComments w with
  | .error _ => none
  | .ok cd =>
      if pyTruthy cd then
        match cd with
        | .arr l =>
            (match filterTestingComments l with
             | .error _ => none
             | .ok filtered => if filtered.isEmpty then none else some filtered)
        | _ => none
      else none

/-- The parent block of `get_issue` (lines 750-768): a truthy parent entry
with a non-blank string key triggers the (failure-absorbing) parent
fetch; reading `key` from a truthy non-dict raises. -/
def parentBlock (w : World) (fieldsVal : JVal) :
    Except JiraError (Option ParentIssue) :=
  match liftE (pyAttrGet fieldsVal "parent") with
  | .error e => .error e
  | .ok parentData =>
      if pyTruthy parentData then
        match liftE (pyAttrGet parentData "key") with
        | .error e => .error e
        | .ok parentKey =>
            (match parentKey with
             | .str s =>
                 if !s.isEmpty && !(pyStrip s).isEmpty then .ok (w.parentFetch s)
                 else .ok none
             | _ => .ok none)
      else .ok none

/-- The linked-issue block of `get_issue` (lines 772-787): only a truthy
`issuelinks` value is classified; iterating a truthy non-list raises
inside `_get_linked_issues`. -/
def linkedBlock (fieldsVal : JVal) : Except JiraError (Option LinkedIssues) :=
  match liftE (pyAttrGetD fieldsVal "issuelinks" (.arr [])) with
  | .error e => .error e
  | .ok issueLinks =>
      if pyTruthy issueLinks then
        match issueLinks with
        | .arr l => liftE (getLinkedIssues l)
        | _ => .error .pyExc
      else .ok none

/-- Everything `get_issue` computes after the development-activity
resolution, none of which depends on that resolution's result:
attachments, filtered comments, parent, linked issues and the `key`
index. -/
def assembleCore (w : World) (p : PrimaryParsed) :
    Except JiraError (List Attachment × Option (List JiraComment) ×
      Option ParentIssue × Option LinkedIssues × JVal) :=
  match liftE (pyAttrGetD p.fieldsVal "attachment" (.arr [])) with
  | .error e => .error e
  | .ok attachmentsVal =>
      match liftE (extractImageAttachments attachmentsVal) with
      | .error e => .error e
      | .ok atts =>
          let cmts := commentsBlock w
          match parentBlock w p.fieldsVal with
          | .error e => .error e
          | .ok par =>
              match linkedBlock p.fieldsVal with
              | .error e => .error e
              | .ok lnk =>
                  match liftE (pyIndex p.data "key") with
                  | .error e => .error e
                  | .ok key => .ok (atts, cmts, par, lnk, key)

/-- `JiraClient.get_issue(issue_key)` (lines 668-801). -/
def getIssue (w : World) : Except JiraError JiraIssue :=
  match parsePrimary w with
  | .error e => .error e
  | .ok p =>
      match liftE (getDevelopmentInfo w p.issueId) with
      | .error e => .error e
      | .ok dev =>
          let dev2 := figmaMergeDev w p.descriptionStr dev
          match assembleCore w p with
          | .error e => .error e
          | .ok (atts, cmts, par, lnk, key) =>
              .ok ⟨key, p.summary,
                   (if p.descriptionStr.isEmpty then none else some p.descriptionStr),
                   p.analysis, p.labels, p.issueType, dev2,
                   (if atts.isEmpty then none else some atts),
                   cmts, par, lnk⟩

/-! ## Helper lemmas -/

/-- `l[:min n len(l)] = l[:n]`. -/
theorem take_min_length {α : Type} (l : List α) (n : Nat) :
    l.take (min n l.length) = l.take n := by
  rcases Nat.le_total n l.length with h | h
  · rw [Nat.min_eq_left h]
  · rw [Nat.min_eq_right h, List.take_of_length_le (le_refl _),
        List.take_of_length_le h]

/-- A successful `commentStep` either keeps the accumulator or appends
one marker-free comment to `parsed_comments`, appending it to
`testing_related` exactly when its body matches the keyword set. -/
theorem commentStep_ok {acc : List JiraComment × List JiraComment} {x : JVal}
    {acc' : List JiraComment × List JiraComment}
    (h : commentStep acc x = .ok acc') :
    acc' = acc ∨ ∃ c : JiraComment, strContains c.body botMarker = false ∧
      acc'.1 = acc.1 ++ [c] ∧
      acc'.2 = (if isTestingBody c.body then acc.2 ++ [c] else acc.2) := by
  simp only [commentStep] at h
  split at h
  · exact Except.noConfusion h
  · split at h
    · exact Except.noConfusion h
    · split at h
      · exact Except.noConfusion h
      · split at h
        · exact Except.noConfusion h
        · split at h
          · left
            cases h
            rfl
          · split at h
            · left
              cases h
              rfl
            · split at h
              · exact Except.noConfusion h
              · split at h
                · exact Except.noConfusion h
                · cases h
                  right
                  refine ⟨_, ?_, rfl, rfl⟩
                  simp_all

/-- Invariant of the comment-parsing loop: `testing_related` is exactly
the keyword-matching sublist of `parsed_comments`, and every parsed
comment either was already in the accumulator or is marker-free. -/
theorem commentLoop_invariant (l : List JVal) :
    ∀ acc p t, commentLoop l acc = .ok (p, t) →
      acc.2 = acc.1.filter (fun c => isTestingBody c.body) →
      t = p.filter (fun c => isTestingBody c.body) ∧
      (∀ c ∈ p, c ∈ acc.1 ∨ strContains c.body botMarker = false) := by
  induction l with
  | nil =>
      intro acc p t h hinv
      simp only [commentLoop] at h
      cases h
      exact ⟨hinv, fun c hc => Or.inl hc⟩
  | cons x xs ih =>
      intro acc p t h hinv
      simp only [commentLoop] at h
      split at h
      · exact Except.noConfusion h
      · rename_i acc1 hstep
        rcases commentStep_ok hstep with heq | ⟨c, hmk, h1, h2⟩
        · rw [heq] at h
          exact ih acc p t h hinv
        · have hinv1 : acc1.2 = acc1.1.filter (fun c => isTestingBody c.body) := by
            rw [h1, h2, List.filter_append, hinv]
            by_cases hb : isTestingBody c.body
            · simp [hb]
            · simp [hb]
          obtain ⟨ht, hp⟩ := ih acc1 p t h hinv1
          refine ⟨ht, fun d hd => ?_⟩
          rcases hp d hd with hmem | hok
          · rw [h1] at hmem
            rcases List.mem_append.mp hmem with hmem | hmem
            · exact Or.inl hmem
            · right
              rcases List.mem_singleton.mp hmem with rfl
              exact hmk
          · exact Or.inr hok

/-- `pyLastTen` is idempotent: its output never exceeds ten entries. -/
theorem pyLastTen_idem (cd : List JVal) : pyLastTen (pyLastTen cd) = pyLastTen cd := by
  unfold pyLastTen
  by_cases h : cd.length > 10
  · rw [if_pos h]
    have hlen : (cd.drop (cd.length - 10)).length = 10 := by
      rw [List.length_drop]
      omega
    rw [if_neg]
    rw [hlen]
    omega
  · rw [if_neg h, if_neg h]

/-- The selection step never returns more than three comments. -/
theorem selectComments_length (p t : List JiraComment) :
    (selectComments p t).length ≤ 3 := by
  unfold selectComments
  split_ifs with h1 h2
  · exact List.length_take_le 3 t
  · have htlen : t.length < 3 := by omega
    rw [List.length_append]
    have := List.length_take_le (3 - t.length)
      (p.filter (fun c => !(t.contains c)))
    omega
  · exact List.length_take_le 3 p

/-! ## C5: the bot marker is always excluded -/

/-- C5: for every raw comment list, no comment whose extracted body text
contains the system-authored marker appears in the filtered output. -/
theorem c5_bot_marker_excluded (cd : List JVal) (res : List JiraComment)
    (c : JiraComment) (h : filterTestingComments cd = .ok res) (hc : c ∈ res) :
    strContains c.body botMarker = false := by
  simp only [filterTestingComments] at h
  split at h
  · exact Except.noConfusion h
  · rename_i p t hloop
    cases h
    obtain ⟨ht, hp⟩ := commentLoop_invariant _ ([], []) p t hloop (by simp)
    have hcp : c ∈ p := by
      simp only [selectComments] at hc
      split_ifs at hc with h1 h2
      · have hct : c ∈ t := List.take_subset 3 t hc
        rw [ht] at hct
        exact (List.mem_filter.mp hct).1
      · rcases List.mem_append.mp hc with hct | hcf
        · rw [ht] at hct
          exact (List.mem_filter.mp hct).1
        · exact (List.mem_filter.mp
            (List.take_subset (3 - t.length) (p.filter (fun c => !(t.contains c))) hcf)).1
      · exact List.take_subset 3 p hc
    rcases hp c hcp with habs | hok
    · simp at habs
    · exact hok

/-- Witness input for the comment-filter claims: a raw Jira comment
object with the given body and creation timestamp. -/
def c4Raw (b ts : String) : JVal :=
  .obj [("author", .obj [("displayName", .str "Reviewer")]),
        ("body", .str b), ("created", .str ts)]

/-- Ten raw comments, exactly one of which (the sixth) contains a testing
keyword ("test"); the others are keyword-free memos. -/
def c4Input : List JVal :=
  [c4Raw "memo 0" "t0", c4Raw "memo 1" "t1", c4Raw "memo 2" "t2",
   c4Raw "memo 3" "t3", c4Raw "memo 4" "t4", c4Raw "please test this" "t5",
   c4Raw "memo 6" "t6", c4Raw "memo 7" "t7", c4Raw "memo 8" "t8",
   c4Raw "memo 9" "t9"]

/-- The parsed form of a `c4Raw` comment. -/
def c4Parsed (b ts : String) : JiraComment :=
  ⟨.str "Reviewer", b, .str ts, .null⟩

/-! ## C4: the comment selection policy -/

/-- C4: the filter considers only the last 10 comments; its output has at
most 3 comments; writing `p` for the retained parsed comments and `t` for
the keyword-matching ones (`t` is exactly the matching sublist of `p`, in
original order), the output is `t[:3]` when `|t| ≥ 3`, all of `t` plus
the earliest non-matching retained comments up to 3 total when
`1 ≤ |t| < 3`, and `p[:3]` when `t` is empty; on ten comments with
exactly one testing-keyword match the output has exactly 3 comments and
includes the matching one. -/
theorem c4_comment_selection :
    (∀ cd, filterTestingComments cd = filterTestingComments (pyLastTen cd)) ∧
    (∀ cd res, filterTestingComments cd = .ok res → res.length ≤ 3) ∧
    (∀ cd p t res, commentLoop (pyLastTen cd) ([], []) = .ok (p, t) →
      filterTestingComments cd = .ok res →
      t = p.filter (fun c => isTestingBody c.body) ∧
      (3 ≤ t.length → res = t.take 3) ∧
      (t ≠ [] → t.length < 3 →
        res = t ++ (p.filter (fun c => !(t.contains c))).take (3 - t.length)) ∧
      (t = [] → res = p.take 3)) ∧
    (filterTestingComments c4Input =
      .ok [c4Parsed "please test this" "t5", c4Parsed "memo 0" "t0",
           c4Parsed "memo 1" "t1"] ∧
     c4Parsed "please test this" "t5" ∈
       [c4Parsed "please test this" "t5", c4Parsed "memo 0" "t0",
        c4Parsed "memo 1" "t1"]) := by
  refine ⟨?_, ?_, ?_, by decide, by decide⟩
  · intro cd
    unfold filterTestingComments
    rw [pyLastTen_idem]
  · intro cd res h
    simp only [filterTestingComments] at h
    split at h
    · exact Except.noConfusion h
    · rename_i p t hloop
      cases h
      exact selectComments_length p t
  · intro cd p t res hloop h
    simp only [filterTestingComments, hloop] at h
    cases h
    obtain ⟨ht, _⟩ := commentLoop_invariant _ ([], []) p t hloop (by simp)
    refine ⟨ht, ?_, ?_, ?_⟩
    · intro h3
      unfold selectComments
      rw [if_pos (by omega)]
    · intro hne hlt
      have htne : (!t.isEmpty) = true := by
        cases t with
        | nil => exact absurd rfl hne
        | cons a l => rfl
      unfold selectComments
      rw [if_neg (by omega), if_pos htne]
    · intro hnil
      unfold selectComments
      rw [hnil]
      simp

/-- Witness for C4's bound at the concrete ten-comment input. -/
theorem c4_witness :
    ([c4Parsed "please test this" "t5", c4Parsed "memo 0" "t0",
      c4Parsed "memo 1" "t1"] : List JiraComment).length ≤ 3 :=
  c4_comment_selection.2.1 c4Input _ (by decide)

/-- Witness for C5 at the concrete ten-comment input: the selected
testing comment carries no marker. -/
theorem c5_witness :
    strContains (c4Parsed "please test this" "t5").body botMarker = false :=
  c5_bot_marker_excluded c4Input
    [c4Parsed "please test this" "t5", c4Parsed "memo 0" "t0",
     c4Parsed "memo 1" "t1"]
    (c4Parsed "please test this" "t5") (by decide) (by decide)

/-! ## C8: linked-issue classification -/

/-- A raw link whose type is the "blocks" family, inward direction. -/
def c8BlockedByLink : JVal :=
  .obj [("type", .obj [("name", .str "Blocks")]),
        ("inwardIssue",
         .obj [("key", .str "PROJ-1"),
               ("fields",
                .obj [("summary", .str "Upstream work"),
                      ("issuetype", .obj [("name", .str "Story")]),
                      ("status", .obj [("name", .str "Open")])])])]

/-- The parsed form of `c8BlockedByLink`'s inward issue. -/
def c8BlockedByParsed : LinkedIssue :=
  ⟨.str "PROJ-1", .str "Upstream work", none, .str "Story", "is_blocked_by",
   .str "Open"⟩

/-- A raw link whose type is the "causes" family, outward direction. -/
def c8CausesLink : JVal :=
  .obj [("type", .obj [("name", .str "Causes")]),
        ("outwardIssue",
         .obj [("key", .str "PROJ-2"),
               ("fields",
                .obj [("summary", .str "Broken flow"),
                      ("issuetype", .obj [("name", .str "Bug")]),
                      ("status", .obj [("name", .str "To Do")])])])]

/-- The parsed form of `c8CausesLink`'s outward issue. -/
def c8CausesParsed : LinkedIssue :=
  ⟨.str "PROJ-2", .str "Broken flow", none, .str "Bug", "causes", .str "To Do"⟩

/-- C8: writing `b, bb, c, cb` for the four classified lists, the result
is absent exactly when no link produced a classified entry; when at least
one did, the result carries all four directional lists, each truncated to
at most 5 entries; and one "is blocked by" link plus one "causes" link
yield `blocked_by` of length 1, `causes` of length 1, the other lists
empty, and a present (non-`None`) result. -/
theorem c8_linked_issue_classification :
    (∀ links b bb c cb,
      classifyLoop links ⟨[], [], [], []⟩ = .ok ⟨b, bb, c, cb⟩ →
      ((getLinkedIssues links = .ok none) ↔ (b = [] ∧ bb = [] ∧ c = [] ∧ cb = [])) ∧
      (∀ li, getLinkedIssues links = .ok (some li) →
        li.blocks = b.take 5 ∧ li.blocked_by = bb.take 5 ∧
        li.causes = c.take 5 ∧ li.caused_by = cb.take 5 ∧
        li.blocks.length ≤ 5 ∧ li.blocked_by.length ≤ 5 ∧
        li.causes.length ≤ 5 ∧ li.caused_by.length ≤ 5)) ∧
    (getLinkedIssues [c8BlockedByLink, c8CausesLink] =
      .ok (some ⟨[], [c8BlockedByParsed], [c8CausesParsed], []⟩) ∧
     ([c8BlockedByParsed].length = 1 ∧ [c8CausesParsed].length = 1)) := by
  refine ⟨?_, by decide, by decide, by decide⟩
  intro links b bb c cb hcls
  by_cases hl : links.isEmpty
  · rw [List.isEmpty_iff] at hl
    subst hl
    simp only [classifyLoop] at hcls
    have hb : b = [] ∧ bb = [] ∧ c = [] ∧ cb = [] := by
      cases hcls
      exact ⟨rfl, rfl, rfl, rfl⟩
    constructor
    · simp [getLinkedIssues, hb]
    · intro li hli
      simp [getLinkedIssues] at hli
  · have hlb : links.isEmpty = false := by
      rcases h : links.isEmpty with _ | _
      · rfl
      · exact absurd h hl
    have hunfold : getLinkedIssues links =
        (if (b.take maxLinksPerType).isEmpty && (bb.take maxLinksPerType).isEmpty &&
            (c.take maxLinksPerType).isEmpty && (cb.take maxLinksPerType).isEmpty then
          .ok none
        else .ok (some ⟨b.take maxLinksPerType, bb.take maxLinksPerType,
          c.take maxLinksPerType, cb.take maxLinksPerType⟩)) := by
      simp only [getLinkedIssues, hlb, Bool.false_eq_true, if_false, hcls]
    have htake : ∀ l : List LinkedIssue,
        (l.take maxLinksPerType).isEmpty = true ↔ l = [] := by
      intro l
      rw [List.isEmpty_iff, List.take_eq_nil_iff]
      unfold maxLinksPerType
      simp
    by_cases hcond : (b.take maxLinksPerType).isEmpty &&
        (bb.take maxLinksPerType).isEmpty && (c.take maxLinksPerType).isEmpty &&
        (cb.take maxLinksPerType).isEmpty
    · rw [hcond] at hunfold
      simp only [if_true] at hunfold
      have hall : b = [] ∧ bb = [] ∧ c = [] ∧ cb = [] := by
        simp only [Bool.and_eq_true] at hcond
        exact ⟨(htake b).mp hcond.1.1.1, (htake bb).mp hcond.1.1.2,
               (htake c).mp hcond.1.2, (htake cb).mp hcond.2⟩
      constructor
      · simp [hunfold, hall]
      · intro li hli
        rw [hunfold] at hli
        cases hli
    · have hcf : ((b.take maxLinksPerType).isEmpty &&
          (bb.take maxLinksPerType).isEmpty && (c.take maxLinksPerType).isEmpty &&
          (cb.take maxLinksPerType).isEmpty) = false := by
        rcases h : ((b.take maxLinksPerType).isEmpty &&
          (bb.take maxLinksPerType).isEmpty && (c.take maxLinksPerType).isEmpty &&
          (cb.take maxLinksPerType).isEmpty) with _ | _
        · rfl
        · exact absurd h hcond
      rw [hcf] at hunfold
      simp only [Bool.false_eq_true, if_false] at hunfold
      constructor
      · rw [hunfold]
        constructor
        · intro habs
          cases habs
        · rintro ⟨rfl, rfl, rfl, rfl⟩
          simp at hcf
      · intro li hli
        rw [hunfold] at hli
        have : li = ⟨b.take maxLinksPerType, bb.take maxLinksPerType,
            c.take maxLinksPerType, cb.take maxLinksPerType⟩ := by
          cases hli
          rfl
        subst this
        refine ⟨rfl, rfl, rfl, rfl, ?_, ?_, ?_, ?_⟩ <;>
          exact List.length_take_le _ _

/-- Witness for C8: the truncation bound instantiated at the concrete
two-link input. -/
theorem c8_witness :
    (LinkedIssues.mk [] [c8BlockedByParsed] [c8CausesParsed] []).blocked_by.length ≤ 5 :=
  ((c8_linked_issue_classification.1 [c8BlockedByLink, c8CausesLink]
      [] [c8BlockedByParsed] [c8CausesParsed] [] (by decide)).2
    ⟨[], [c8BlockedByParsed], [c8CausesParsed], []⟩ (by decide)).2.2.2.2.2.1

/-! ## C7: links with missing nested issue data -/

/-- A raw link that matches the "blocks" family but carries neither an
`inwardIssue` nor an `outwardIssue` entry. -/
def c7DeadLink : JVal := .obj [("type", .obj [("name", .str "Blocks")])]

/-- C7 counterexample: the family-matching link with missing nested issue
data is dropped entirely — the classification result is `None`, so no
`"UNKNOWN"` placeholder appears in any directional list. -/
theorem c7_counterexample :
    getLinkedIssues [c7DeadLink] = .ok none ∧
    ∀ li, getLinkedIssues [c7DeadLink] ≠ .ok (some li) := by
  refine ⟨by decide, ?_⟩
  intro li h
  rw [(by decide : getLinkedIssues [c7DeadLink] = .ok none)] at h
  cases h

/-- C7 (amended): a link entry whose nested issue data is absent or falsy
contributes nothing to the classification (it is dropped, amounting to
deleting it from the link list); only when the nested issue value is
truthy (in particular a non-empty dict) is it parsed, and a parsed dict
lacking the `key` field is represented with key `"UNKNOWN"` in the
corresponding directional list. -/
theorem c7_missing_data_dropped :
    (∀ fields lt li, parseLinkedIssue (.obj fields) lt = .ok li →
      jLookup fields "key" = none → li.key = .str "UNKNOWN") ∧
    (∀ acc f tf, jGetD f "type" (.obj []) = .obj tf →
      (∃ s, jGetD tf "name" (.str "") = .str s) →
      pyTruthy (jGetD f "inwardIssue" .null) = false →
      pyTruthy (jGetD f "outwardIssue" .null) = false →
      classifyStep acc (.obj f) = .ok acc) ∧
    (∀ l1 l2 acc f tf, jGetD f "type" (.obj []) = .obj tf →
      (∃ s, jGetD tf "name" (.str "") = .str s) →
      pyTruthy (jGetD f "inwardIssue" .null) = false →
      pyTruthy (jGetD f "outwardIssue" .null) = false →
      classifyLoop (l1 ++ .obj f :: l2) acc = classifyLoop (l1 ++ l2) acc) := by
  have hstep : ∀ acc f tf, jGetD f "type" (.obj []) = .obj tf →
      (∃ s, jGetD tf "name" (.str "") = .str s) →
      pyTruthy (jGetD f "inwardIssue" .null) = false →
      pyTruthy (jGetD f "outwardIssue" .null) = false →
      classifyStep acc (.obj f) = .ok acc := by
    intro acc f tf htype ⟨s, hname⟩ hin hout
    simp only [classifyStep, pyAttrGetD, pyAttrGet, htype, hname, hin, hout]
    split_ifs <;> simp_all
  refine ⟨?_, hstep, ?_⟩
  · intro fields lt li h hkey
    simp only [parseLinkedIssue] at h
    split_ifs at h
    · cases h
      rfl
    · simp only [pyAttrGetD, pyAttrGet] at h
      split at h
      · exact Except.noConfusion h
      · split at h
        · exact Except.noConfusion h
        · split at h
          · exact Except.noConfusion h
          · split at h
            · exact Except.noConfusion h
            · split at h
              · exact Except.noConfusion h
              · split at h
                · exact Except.noConfusion h
                · cases h
                  simp only [jGetD, hkey, Option.getD_none]
  · intro l1 l2 acc f tf htype hname hin hout
    induction l1 generalizing acc with
    | nil =>
        simp only [List.nil_append, classifyLoop]
        rw [hstep acc f tf htype hname hin hout]
    | cons x xs ih =>
        simp only [List.cons_append, classifyLoop]
        split
        · rfl
        · rename_i acc1 hx
          exact ih acc1

/-- Witness for C7's amended claim: a parsed link-issue dict without a
`key` field gets the `"UNKNOWN"` key. -/
theorem c7_witness :
    (LinkedIssue.mk (.str "UNKNOWN") (.str "Unknown") none (.str "Unknown")
      "blocks" .null).key = .str "UNKNOWN" :=
  c7_missing_data_dropped.1 [("fields", .obj [])] "blocks"
    ⟨.str "UNKNOWN", .str "Unknown", none, .str "Unknown", "blocks", .null⟩
    (by decide) (by decide)

/-- Lookup in a redacted field list: the stored value transformed
according to the key. -/
theorem jLookup_redactFields (t : JVal) (s : Bool)
    (fields : List (String × JVal)) (key : String) :
    jLookup (redactFields t s fields) key =
      (jLookup fields key).map (fun v =>
        if key = "text" && s then t
        else if key = "content" then redactNode t v else v) := by
  induction fields with
  | nil => simp [redactFields, jLookup]
  | cons kv rest ih =>
      obtain ⟨k, v⟩ := kv
      by_cases hk : k = key
      · subst hk
        simp [redactFields, jLookup]
      · simp only [redactFields, jLookup, if_neg hk]
        exact ih

/-- Lookup of a key other than `text` and `content` is unchanged by
redaction. -/
theorem jLookup_redactFields_other (t : JVal) (s : Bool)
    (fields : List (String × JVal)) (key : String)
    (h1 : key ≠ "text") (h2 : key ≠ "content") :
    jLookup (redactFields t s fields) key = jLookup fields key := by
  rw [jLookup_redactFields]
  rcases jLookup fields key with _ | v
  · rfl
  · simp [h1, h2]

/-- The text-emission step is unchanged by redaction: a struck node's
text is skipped on both sides, an unstruck node's text is kept
verbatim. -/
theorem textStep_redact (t : JVal) (fields : List (String × JVal))
    (acc : List JVal) :
    textStep (redactFields t (isStruckB fields) fields) acc =
      textStep fields acc := by
  unfold textStep
  have hmarks : jGetD (redactFields t (isStruckB fields) fields) "marks" (.arr []) =
      jGetD fields "marks" (.arr []) := by
    unfold jGetD
    rw [jLookup_redactFields_other t _ fields "marks" (by decide) (by decide)]
  rw [jLookup_redactFields, hmarks]
  rcases htv : jLookup fields "text" with _ | tv
  · rfl
  · simp only [Option.map_some]
    rcases hstrike : pyAnyStrike (jGetD fields "marks" (.arr [])) with e | b
    · rfl
    · rcases b with _ | _
      · have hsb : isStruckB fields = false := by
          unfold isStruckB
          rw [hstrike]
        rw [hsb]
        simp
      · rfl

/-- The card step is unchanged by redaction (it reads only `attrs`). -/
theorem cardStep_redact (t : JVal) (s : Bool) (fields : List (String × JVal))
    (acc : List JVal) :
    cardStep (redactFields t s fields) acc = cardStep fields acc := by
  unfold cardStep
  unfold jGetD
  rw [jLookup_redactFields_other t s fields "attrs" (by decide) (by decide)]

/-- Size bound used for the strong induction: every element of a list is
smaller than the list. -/
theorem sizeOf_mem_le {x : JVal} {l : List JVal} (h : x ∈ l) :
    sizeOf x < sizeOf l := List.sizeOf_lt_of_mem h

/-- Strikethrough invariance of the recursive extractor: replacing the
text of every struck node by an arbitrary value leaves the extraction
result (including its error behaviour) unchanged. -/
theorem extractRec_redact (t : JVal) :
    ∀ n, ∀ v acc, sizeOf v ≤ n →
      extractRec v acc = extractRec (redactNode t v) acc := by
  intro n
  induction n with
  | zero =>
      intro v acc h
      exfalso
      cases v <;> simp at h
  | succ n ih =>
      intro v acc hsize
      match v with
      | .str s => simp [redactNode]
      | .null => simp [redactNode]
      | .bool b => simp [redactNode]
      | .num m => simp [redactNode]
      | .arr items =>
          have hlist : ∀ its acc2, (∀ x ∈ its, sizeOf x ≤ n) →
              extractRecList its acc2 = extractRecList (redactList t its) acc2 := by
            intro its
            induction its with
            | nil => intro acc2 _; simp [redactList]
            | cons x xs ihl =>
                intro acc2 hx
                simp only [redactList, extractRecList]
                rw [← ih x acc2 (hx x (List.mem_cons_self x xs))]
                rcases hstep : extractRec x acc2 with e | acc3
                · rfl
                · exact ihl acc3 (fun y hy => hx y (List.mem_cons_of_mem x hy))
          have hsz : ∀ x ∈ items, sizeOf x ≤ n := by
            intro x hx
            have h1 := sizeOf_mem_le hx
            have : sizeOf (JVal.arr items) = 1 + sizeOf items := by simp
            omega
          simp only [redactNode, extractRec]
          exact hlist items acc hsz
      | .obj fields =>
          have htype : jLookup (redactFields t (isStruckB fields) fields) "type" =
              jLookup fields "type" :=
            jLookup_redactFields_other t _ fields "type" (by decide) (by decide)
          have hkey : hasKeyB (redactFields t (isStruckB fields) fields) "content" =
              hasKeyB fields "content" := by
            unfold hasKeyB
            rw [jLookup_redactFields]
            rcases jLookup fields "content" with _ | c <;> rfl
          have hcv : jGetD (redactFields t (isStruckB fields) fields) "content" .null =
              redactNode t (jGetD fields "content" .null) := by
            unfold jGetD
            rw [jLookup_redactFields]
            rcases jLookup fields "content" with _ | c
            · simp [redactNode]
            · simp
          have hsz : sizeOf (jGetD fields "content" .null) ≤ n := by
            by_cases hk : hasKeyB fields "content" = true
            · have := jGetD_sizeOf hk
              omega
            · unfold hasKeyB at hk
              rcases hv : jLookup fields "content" with _ | c
              · unfold jGetD
                rw [hv]
                have h2 : 1 ≤ sizeOf fields := by
                  cases fields <;> simp <;> omega
                simp at hsize ⊢
                omega
              · rw [hv] at hk
                simp at hk
          have hIH : ∀ acc', extractRec (jGetD fields "content" .null) acc' =
              extractRec (redactNode t (jGetD fields "content" .null)) acc' :=
            fun acc' => ih _ acc' hsz
          simp only [redactNode, extractRec, textStep_redact, htype, hkey, hcv,
            cardStep_redact, ← hIH]

/-- C3: struck-through text never contributes to the extracted plain
text: replacing the `text` value of every node whose marks include a
strikethrough mark by an arbitrary value changes neither the recursive
extraction (accumulator and error behaviour included) nor the final
extracted string of a rich-text document. -/
theorem c3_strikethrough_never_contributes :
    (∀ t v acc, extractRec v acc = extractRec (redactNode t v) acc) ∧
    (∀ t fields, extractTextFromAdf (.obj fields) =
      extractTextFromAdf (redactNode t (.obj fields))) := by
  have hrec : ∀ t v acc, extractRec v acc = extractRec (redactNode t v) acc :=
    fun t v acc => extractRec_redact t (sizeOf v) v acc (le_refl _)
  refine ⟨hrec, fun t fields => ?_⟩
  simp only [redactNode, extractTextFromAdf]
  rw [show JVal.obj (redactFields t (isStruckB fields) fields) =
        redactNode t (.obj fields) from by simp [redactNode]]
  rw [← hrec t (.obj fields) []]

/-- All parts collected so far are strings (so the final `"\n".join`
cannot raise). -/
def allStrB (l : List JVal) : Bool := l.all isStrB

/-- Appending preserves the all-strings invariant. -/
theorem allStrB_append {acc : List JVal} {x : JVal}
    (hacc : allStrB acc = true) (hx : isStrB x = true) :
    allStrB (acc ++ [x]) = true := by
  simp only [allStrB, List.all_append, List.all_cons, List.all_nil] at *
  simp [hacc, hx]

/-- Appending a string literal part preserves the invariant. -/
theorem allStrB_append_str {acc : List JVal} (s : String)
    (hacc : allStrB acc = true) : allStrB (acc ++ [.str s]) = true :=
  allStrB_append hacc rfl

/-- On a list of dicts the strikethrough scan cannot raise. -/
theorem strikeScan_ok (l : List JVal) (h : l.all isObjB = true) :
    ∃ b, strikeScan l = .ok b := by
  induction l with
  | nil => exact ⟨false, rfl⟩
  | cons x xs ih =>
      simp only [List.all_cons, Bool.and_eq_true] at h
      obtain ⟨hx, hxs⟩ := h
      rcases x with _ | _ | _ | _ | _ | f <;> simp [isObjB] at hx
      unfold strikeScan
      by_cases hs : jLookup f "type" = some (.str "strike")
      · exact ⟨true, by rw [if_pos hs]⟩
      · obtain ⟨b, hb⟩ := ih hxs
        exact ⟨b, by rw [if_neg hs]; exact hb⟩

/-- On a well-formed `marks` value the strikethrough test cannot raise. -/
theorem pyAnyStrike_marksOk (v : JVal) (h : marksOkB v = true) :
    ∃ b, pyAnyStrike v = .ok b := by
  rcases v with _ | _ | _ | _ | l | _ <;> simp [marksOkB] at h
  unfold pyAnyStrike pyIter
  exact strikeScan_ok l (by simpa [List.all_eq_true] using h)

/-- All-string parts join without raising. -/
theorem pyJoinStrs_ok (parts : List JVal) (h : allStrB parts = true) :
    ∃ l, pyJoinStrs parts = .ok l := by
  induction parts with
  | nil => exact ⟨[], rfl⟩
  | cons x xs ih =>
      simp only [allStrB, List.all_cons, Bool.and_eq_true] at h
      obtain ⟨hx, hxs⟩ := h
      rcases x with _ | _ | _ | s | _ | _ <;> simp [isStrB] at hx
      obtain ⟨l, hl⟩ := ih hxs
      exact ⟨s :: l, by simp [pyJoinStrs, hl]⟩

/-- On a node satisfying the text part of `wfAdf`, the text-emission step
cannot raise and keeps all parts strings. -/
theorem textStep_wf (fields : List (String × JVal)) (acc : List JVal)
    (hwf : (match jLookup fields "text" with
            | none => true
            | some tv => isStrB tv && marksOkB (jGetD fields "marks" (.arr []))) = true)
    (hacc : allStrB acc = true) :
    ∃ acc1, textStep fields acc = .ok acc1 ∧ allStrB acc1 = true := by
  unfold textStep
  rcases htv : jLookup fields "text" with _ | tv
  · exact ⟨acc, rfl, hacc⟩
  · rw [htv] at hwf
    simp only [Bool.and_eq_true] at hwf
    obtain ⟨hstr, hmk⟩ := hwf
    obtain ⟨b, hb⟩ := pyAnyStrike_marksOk _ hmk
    rw [hb]
    rcases b
    · exact ⟨acc ++ [tv], rfl, allStrB_append hacc hstr⟩
    · exact ⟨acc, rfl, hacc⟩

/-- On a node satisfying the card part of `wfAdf`, the card step cannot
raise and keeps all parts strings. -/
theorem cardStep_wf (fields : List (String × JVal)) (acc : List JVal)
    (hwf : (match jGetD fields "attrs" (.obj []) with
            | .obj af =>
                (match jLookup af "url" with
                 | none => true
                 | some u => isStrB u || !pyTruthy u)
            | _ => false) = true)
    (hacc : allStrB acc = true) :
    ∃ acc1, cardStep fields acc = .ok acc1 ∧ allStrB acc1 = true := by
  unfold cardStep pyAttrGet pyAttrGetD
  rcases ha : jGetD fields "attrs" (.obj []) with _ | _ | _ | _ | _ | af <;>
    rw [ha] at hwf <;> try simp at hwf
  rcases hu : jLookup af "url" with _ | u
  · refine ⟨acc, ?_, hacc⟩
    simp [jGetD, hu, pyTruthy]
  · simp only [hu, Bool.or_eq_true] at hwf
    by_cases ht : pyTruthy u = true
    · have hstr : isStrB u = true := by
        rcases hwf with h | h
        · exact h
        · rw [ht] at h
          simp at h
      refine ⟨acc ++ [u], ?_, allStrB_append hacc hstr⟩
      simp [jGetD, hu, ht]
    · refine ⟨acc, ?_, hacc⟩
      have : pyTruthy u = false := by
        rcases h : pyTruthy u with _ | _
        · rfl
        · exact absurd h ht
      simp [jGetD, hu, this]

/-- On a well-formed tree the recursive extractor cannot raise and
collects only string parts. -/
theorem extractRec_wf :
    ∀ n v acc, sizeOf v ≤ n → wfAdf v = true → allStrB acc = true →
      ∃ acc', extractRec v acc = .ok acc' ∧ allStrB acc' = true := by
  intro n
  induction n with
  | zero =>
      intro v acc h
      exfalso
      cases v <;> simp at h
  | succ n ih =>
      intro v acc hsize hwf hacc
      match v with
      | .str s =>
          refine ⟨acc ++ [.str s], by rw [extractRec], ?_⟩
          exact allStrB_append hacc rfl
      | .null => exact ⟨acc, by simp [extractRec], hacc⟩
      | .bool b => exact ⟨acc, by simp [extractRec], hacc⟩
      | .num m => exact ⟨acc, by simp [extractRec], hacc⟩
      | .arr items =>
          have hwfl : ∀ x ∈ items, wfAdf x = true := by
            rw [show wfAdf (.arr items) = items.attach.all (fun x => wfAdf x.1)
                  from by simp [wfAdf]] at hwf
            rw [List.all_eq_true] at hwf
            intro x hx
            exact hwf ⟨x, hx⟩ (List.mem_attach items ⟨x, hx⟩)
          have hsz : ∀ x ∈ items, sizeOf x ≤ n := by
            intro x hx
            have h1 := List.sizeOf_lt_of_mem hx
            have h2 : sizeOf (JVal.arr items) = 1 + sizeOf items := by simp
            omega
          have hlist : ∀ its acc2, (∀ x ∈ its, sizeOf x ≤ n) →
              (∀ x ∈ its, wfAdf x = true) → allStrB acc2 = true →
              ∃ acc', extractRecList its acc2 = .ok acc' ∧ allStrB acc' = true := by
            intro its
            induction its with
            | nil => intro acc2 _ _ h2; exact ⟨acc2, by rw [extractRecList], h2⟩
            | cons x xs ihl =>
                intro acc2 h1 h2 h3
                obtain ⟨acc3, hx, hstr3⟩ :=
                  ih x acc2 (h1 x (List.mem_cons_self x xs))
                    (h2 x (List.mem_cons_self x xs)) h3
                obtain ⟨acc4, hxs, hstr4⟩ := ihl acc3
                  (fun y hy => h1 y (List.mem_cons_of_mem x hy))
                  (fun y hy => h2 y (List.mem_cons_of_mem x hy)) hstr3
                refine ⟨acc4, ?_, hstr4⟩
                simp only [extractRecList, hx, hxs]
          obtain ⟨acc', hres, hstr⟩ := hlist items acc hsz hwfl hacc
          exact ⟨acc', by simp only [extractRec]; exact hres, hstr⟩
      | .obj fields =>
          have hwf3 := hwf
          rw [wfAdf] at hwf3
          simp only [Bool.and_eq_true] at hwf3
          obtain ⟨⟨hwtext, hwcard⟩, hwcontent⟩ := hwf3
          obtain ⟨acc1, htext, hstr1⟩ := textStep_wf fields acc hwtext hacc
          have hcontentIH : hasKeyB fields "content" = true →
              ∀ acc2, allStrB acc2 = true →
              ∃ acc', extractRec (jGetD fields "content" .null) acc2 = .ok acc' ∧
                allStrB acc' = true := by
            intro hk acc2 h2
            have h3 := @jGetD_sizeOf fields "content" hk
            have hwfc : wfAdf (jGetD fields "content" .null) = true := by
              rw [dif_pos hk] at hwcontent
              exact hwcontent
            exact ih _ acc2 (by simp at h3 hsize; omega) hwfc h2
          simp only [extractRec, htext]
          by_cases hcard : (jLookup fields "type" = some (.str "inlineCard") ||
              jLookup fields "type" = some (.str "blockCard")) = true
          · rw [if_pos hcard]
            rw [if_pos hcard] at hwcard
            exact cardStep_wf fields acc1 hwcard hstr1
          · rw [if_neg hcard]
            by_cases hpara : isParaType (jLookup fields "type") = true
            · rw [if_pos hpara]
              by_cases hk : hasKeyB fields "content" = true
              · rw [if_pos hk]
                obtain ⟨acc2, hc, hstr2⟩ := hcontentIH hk acc1 hstr1
                rw [hc]
                exact ⟨acc2 ++ [.str ""], rfl, allStrB_append_str _ hstr2⟩
              · rw [if_neg hk]
                exact ⟨acc1 ++ [.str ""], rfl, allStrB_append_str _ hstr1⟩
            · rw [if_neg hpara]
              by_cases hlist : isListContainerType (jLookup fields "type") = true
              · rw [if_pos hlist]
                by_cases hk : hasKeyB fields "content" = true
                · rw [if_pos hk]
                  obtain ⟨acc2, hc, hstr2⟩ := hcontentIH hk acc1 hstr1
                  rw [hc]
                  exact ⟨acc2 ++ [.str ""], rfl, allStrB_append_str _ hstr2⟩
                · rw [if_neg hk]
                  exact ⟨acc1 ++ [.str ""], rfl, allStrB_append_str _ hstr1⟩
              · rw [if_neg hlist]
                by_cases hitem : jLookup fields "type" = some (.str "listItem")
                · rw [if_pos hitem]
                  by_cases hk : hasKeyB fields "content" = true
                  · rw [if_pos hk]
                    exact hcontentIH hk (acc1 ++ [.str "• "])
                      (allStrB_append_str _ hstr1)
                  · rw [if_neg hk]
                    exact ⟨acc1 ++ [.str "• "], rfl, allStrB_append_str _ hstr1⟩
                · rw [if_neg hitem]
                  by_cases hk : hasKeyB fields "content" = true
                  · rw [if_pos hk]
                    exact hcontentIH hk acc1 hstr1
                  · rw [if_neg hk]
                    exact ⟨acc1, rfl, hstr1⟩

/-- C6 counterexample: a node whose `marks` list contains a non-dict
entry makes the extraction raise (`AttributeError` on `mark.get`),
modelled as `.error ()`. -/
theorem c6_counterexample :
    extractTextFromAdf (.obj [("text", .str "x"), ("marks", .arr [.num 1])]) =
      .error () := by
  simp [extractTextFromAdf, extractRec, textStep, jLookup, jGetD,
    pyAnyStrike, pyIter, strikeScan]

/-- C6 (amended): the extraction returns a string and never raises for
every input satisfying `wfAdf` — in particular every tree in which marks
lists contain only dicts, card `attrs` are dicts, and contributed
text/url values are strings; and a node with no fields contributes no
content (empty output), absent fields defaulting to nothing. -/
theorem c6_no_raise_on_wellformed :
    (∀ v, wfAdf v = true → ∃ s, extractTextFromAdf v = .ok s) ∧
    extractTextFromAdf (.obj []) = .ok "" := by
  refine ⟨?_, by
    simp [extractTextFromAdf, extractRec, textStep, jLookup, jGetD, hasKeyB,
      isParaType, isListContainerType, pyJoinNewline, pyJoinStrs]
    rfl⟩
  intro v hwf
  match v with
  | .null => exact ⟨"", rfl⟩
  | .str s => exact ⟨pyStrip s, rfl⟩
  | .bool b => exact ⟨pyStrip (pyRepr (.bool b)), rfl⟩
  | .num m => exact ⟨pyStrip (pyRepr (.num m)), rfl⟩
  | .arr items => exact ⟨pyStrip (pyRepr (.arr items)), rfl⟩
  | .obj fields =>
      obtain ⟨parts, hrec, hstr⟩ :=
        extractRec_wf (sizeOf (JVal.obj fields)) (.obj fields) [] (le_refl _) hwf rfl
      obtain ⟨l, hjoin⟩ := pyJoinStrs_ok parts hstr
      refine ⟨pyStrip (String.intercalate "\n" l), ?_⟩
      simp only [extractTextFromAdf, hrec, pyJoinNewline, hjoin]

/-- Witness for C6's amended claim at a concrete well-formed node with a
text and a (non-strike) mark. -/
theorem c6_witness :
    ∃ s, extractTextFromAdf
      (.obj [("text", .str "All good"),
             ("marks", .arr [.obj [("type", .str "em")]])]) = .ok s :=
  c6_no_raise_on_wellformed.1 _
    (by simp [wfAdf, jLookup, jGetD, hasKeyB, marksOkB, isStrB, isObjB])

/-! ## C2: bounded frame extraction -/

/-- Lookup in a truncated field list: only the `children` value is
transformed. -/
theorem jLookup_truncFields (f : Nat) (fields : List (String × JVal))
    (key : String) :
    jLookup (truncFields f fields) key =
      (jLookup fields key).map (fun v =>
        if key = "children" then truncChildren f v else v) := by
  induction fields with
  | nil => simp [truncFields, jLookup]
  | cons kv rest ih =>
      obtain ⟨k, v⟩ := kv
      by_cases hk : k = key
      · subst hk
        simp [truncFields, jLookup]
      · simp only [truncFields, jLookup, if_neg hk]
        exact ih

/-- Truncating the elements commutes with taking a prefix. -/
theorem truncList_take (f : Nat) (l : List JVal) (n : Nat) :
    truncList f (l.take n) = (truncList f l).take n := by
  induction l generalizing n with
  | nil => simp [truncList]
  | cons x xs ih =>
      cases n with
      | zero => simp [truncList]
      | succ n =>
          simp only [List.take_succ_cons, truncList, ih]

/-- The result of `_extract_frames` depends only on the part of the tree
within the remaining visitable depth and the first 50 children of each
node: extraction is invariant under `truncNode` at the matching fuel. -/
theorem extractFrames_trunc :
    ∀ fuel d m node, m + 1 - d = fuel →
      extractFrames node d m = extractFrames (truncNode fuel node) d m := by
  intro fuel
  induction fuel with
  | zero =>
      intro d m node hf
      have hd : d > m := by omega
      rw [show truncNode 0 node = .null from by rw [truncNode]]
      simp only [extractFrames.eq_def, if_pos hd]
  | succ f ih =>
      intro d m node hf
      have hd : ¬ d > m := by omega
      have hf2 : m + 1 - (d + 1) = f := by omega
      rcases node with _ | b | m0 | s | items | fields
      · rw [show truncNode (f + 1) JVal.null = JVal.null from by simp [truncNode]]
      · rw [show truncNode (f + 1) (JVal.bool b) = JVal.bool b from by
          simp [truncNode]]
      · rw [show truncNode (f + 1) (JVal.num m0) = JVal.num m0 from by
          simp [truncNode]]
      · rw [show truncNode (f + 1) (JVal.str s) = JVal.str s from by
          simp [truncNode]]
      · rw [show truncNode (f + 1) (JVal.arr items) = JVal.arr items from by
          simp [truncNode]]
      · have hlist : ∀ kids,
            extractFramesList kids (d + 1) m =
              extractFramesList (truncList f kids) (d + 1) m := by
          intro kids
          induction kids with
          | nil => rw [show truncList f [] = ([] : List JVal) from by
              rw [truncList]]
          | cons x xs ihk =>
              rw [show truncList f (x :: xs) = truncNode f x :: truncList f xs
                    from by rw [truncList]]
              rw [extractFramesList, extractFramesList]
              rw [← ih (d + 1) m x hf2]
              rcases hx : extractFrames x (d + 1) m with e | a
              · rfl
              · rw [← ihk]
        rw [show truncNode (f + 1) (JVal.obj fields) = .obj (truncFields f fields)
              from by rw [truncNode]]
        have htyp : jGetD (truncFields f fields) "type" .null =
            jGetD fields "type" .null := by
          unfold jGetD
          rw [jLookup_truncFields]
          rcases jLookup fields "type" with _ | v <;> simp
        have hname : jGetD (truncFields f fields) "name" (.str "Unnamed") =
            jGetD fields "name" (.str "Unnamed") := by
          unfold jGetD
          rw [jLookup_truncFields]
          rcases jLookup fields "name" with _ | v <;> simp
        have hid : jGetD (truncFields f fields) "id" .null =
            jGetD fields "id" .null := by
          unfold jGetD
          rw [jLookup_truncFields]
          rcases jLookup fields "id" with _ | v <;> simp
        have hkids : jGetD (truncFields f fields) "children" (.arr []) =
            truncChildren f (jGetD fields "children" (.arr [])) := by
          unfold jGetD
          rw [jLookup_truncFields]
          rcases jLookup fields "children" with _ | v
          · simp only [Option.map_none, Option.getD_none]
            rw [show truncChildren f (JVal.arr []) =
                .arr ((truncList f []).take 50) from by rw [truncChildren]]
            rw [show truncList f [] = ([] : List JVal) from by rw [truncList]]
            rfl
          · simp
        simp only [extractFrames, hd, if_false, htyp, hname, hid, hkids,
          Bool.false_eq_true]
        rcases hcv : jGetD fields "children" (.arr []) with _ | b2 | n2 | s2 | l2 | f2
        · rw [show truncChildren f JVal.null = JVal.null from by
            simp [truncChildren]]
        · rw [show truncChildren f (JVal.bool b2) = JVal.bool b2 from by
            simp [truncChildren]]
        · rw [show truncChildren f (JVal.num n2) = JVal.num n2 from by
            simp [truncChildren]]
        · rw [show truncChildren f (JVal.str s2) =
              .str (String.mk (s2.toList.take 50)) from by rw [truncChildren]]
          simp only [pySlice50]
          rw [show (String.mk (s2.toList.take 50)).toList = s2.toList.take 50
                from rfl]
          rw [List.take_take]
          rfl
        · rw [show truncChildren f (JVal.arr l2) =
              .arr ((truncList f l2).take 50) from by rw [truncChildren]]
          simp only [pySlice50]
          rw [List.take_take]
          simp only [Nat.min_self]
          rw [← truncList_take, hlist (l2.take 50)]
        · rw [show truncChildren f (JVal.obj f2) = JVal.obj f2 from by
            simp [truncChildren]]

/-- The extractor never returns more than 50 frames. -/
theorem extractFrames_length (node : JVal) (d m : Nat)
    (l : List FigmaFrame) (h : extractFrames node d m = .ok l) :
    l.length ≤ 50 := by
  rcases node with _ | b | n0 | s | items | fields
  case obj =>
    rw [extractFrames] at h
    split at h
    · cases h
      simp
    · split at h
      · exact Except.noConfusion h
      · split at h
        · exact Except.noConfusion h
        · cases h
          exact List.length_take_le 50 _
  all_goals
    simp only [extractFrames] at h
  all_goals
    split at h
  all_goals
    first
      | (cases h; simp)
      | exact Except.noConfusion h

/-- The frame collected for every node of the chain below. -/
def chainNodeFrame : FigmaFrame := ⟨.str "Node", .str "FRAME", .null, .null⟩

/-- A chain of `k + 1` nested frames. -/
def frameChain : Nat → JVal
  | 0 => .obj [("type", .str "FRAME"), ("name", .str "Node")]
  | k + 1 =>
      .obj [("type", .str "FRAME"), ("name", .str "Node"),
            ("children", .arr [frameChain k])]

/-- A design document with 200 nested frames: 20 chains of depth 10 under
a canvas root. -/
def bigDesignTree : JVal :=
  .obj [("type", .str "CANVAS"), ("name", .str "Root"),
        ("children", .arr (List.replicate 20 (frameChain 9)))]

/-- Below the depth bound a chain contributes nothing. -/
theorem frameChain_depth4 (k : Nat) :
    extractFrames (frameChain k) 4 3 = .ok [] := by
  rw [extractFrames.eq_def]
  norm_num

/-- A chain visited at depth 3 contributes exactly its head frame. -/
theorem frameChain_depth3 (k : Nat) :
    extractFrames (frameChain (k + 1)) 3 3 = .ok [chainNodeFrame] := by
  rw [frameChain]
  simp [extractFrames, jGetD, jLookup, pySlice50, extractFramesList,
    isFrameType, chainNodeFrame, frameChain_depth4 k]

/-- A chain visited at depth 2 contributes two frames. -/
theorem frameChain_depth2 (k : Nat) :
    extractFrames (frameChain (k + 2)) 2 3 =
      .ok [chainNodeFrame, chainNodeFrame] := by
  rw [frameChain]
  simp [extractFrames, jGetD, jLookup, pySlice50, extractFramesList,
    isFrameType, chainNodeFrame, frameChain_depth3 k]

/-- A chain visited at depth 1 contributes three frames. -/
theorem frameChain_depth1 (k : Nat) :
    extractFrames (frameChain (k + 3)) 1 3 =
      .ok [chainNodeFrame, chainNodeFrame, chainNodeFrame] := by
  rw [frameChain]
  simp [extractFrames, jGetD, jLookup, pySlice50, extractFramesList,
    isFrameType, chainNodeFrame, frameChain_depth2 k]

/-- The frame collected for the canvas root. -/
def rootCanvasFrame : FigmaFrame := ⟨.str "Root", .str "CANVAS", .null, .null⟩

/-- Extraction over `n` depth-10 chains at depth 1 yields `3 n` frames. -/
theorem frameChainList_eval (n : Nat) :
    extractFramesList (List.replicate n (frameChain 9)) 1 3 =
      .ok (List.replicate (3 * n) chainNodeFrame) := by
  induction n with
  | zero => simp [extractFramesList]
  | succ n ih =>
      have hch : extractFrames (frameChain 9) 1 3 =
          .ok [chainNodeFrame, chainNodeFrame, chainNodeFrame] :=
        frameChain_depth1 6
      rw [List.replicate_succ]
      simp only [extractFramesList, hch, ih]
      rw [show 3 * (n + 1) = 3 + 3 * n from by ring]
      rw [List.replicate_add]
      rfl

/-- Extraction of the 201-frame, depth-10 tree returns exactly 50
frames. -/
theorem bigDesignTree_eval :
    extractFrames bigDesignTree 0 3 =
      .ok ((rootCanvasFrame :: List.replicate 60 chainNodeFrame).take 50) := by
  rw [bigDesignTree]
  rw [extractFrames]
  have hkids : List.take 50 (List.replicate 20 (frameChain 9)) =
      List.replicate 20 (frameChain 9) := by
    rw [List.take_replicate]
    norm_num
  have hch : jGetD [("type", JVal.str "CANVAS"), ("name", JVal.str "Root"),
      ("children", JVal.arr (List.replicate 20 (frameChain 9)))] "children"
      (.arr []) = JVal.arr (List.replicate 20 (frameChain 9)) := rfl
  simp only [hch, pySlice50, hkids, frameChainList_eval 20]
  simp [jGetD, jLookup, isFrameType, rootCanvasFrame]

/-- C2: frame extraction returns at most 50 elements for every tree; its
result depends only on the tree truncated to depth 3 (fuel 4 from the
root) and 50 children per node — so nodes deeper than 3 are never
collected and at most 50 children per node are visited; and on the
201-frame, depth-10 tree it returns exactly 50 elements. -/
theorem c2_bounded_frame_extraction :
    (∀ node d m l, extractFrames node d m = .ok l → l.length ≤ 50) ∧
    (∀ node, extractFrames node 0 3 = extractFrames (truncNode 4 node) 0 3) ∧
    (∃ l, extractFrames bigDesignTree 0 3 = .ok l ∧ l.length = 50) := by
  refine ⟨fun node d m l h => extractFrames_length node d m l h,
    fun node => extractFrames_trunc 4 0 3 node (by omega), ?_⟩
  refine ⟨(rootCanvasFrame :: List.replicate 60 chainNodeFrame).take 50,
    bigDesignTree_eval, ?_⟩
  rw [List.length_take]
  simp

/-- Witness for C2's bound at the concrete 201-frame tree. -/
theorem c2_witness :
    ((rootCanvasFrame :: List.replicate 60 chainNodeFrame).take 50).length ≤ 50 :=
  c2_bounded_frame_extraction.1 bigDesignTree 0 3 _ bigDesignTree_eval

/-! ## C9: quality analysis of a strong description -/

/-- C9: for every description whose stripped text is 80 characters and 10
words long and contains (case-insensitively) "given", "when", "then" and
"verify", `analyze_description` reports a present, non-weak description
with zero warnings. -/
theorem c9_strong_description_no_warnings (s : String)
    (hchar : (pyStrip s).length = 80)
    (hword : (pySplitWs (pyStrip s)).length = 10)
    (hg : strContains (pyLower (pyStrip s)) "given" = true)
    (hv : strContains (pyLower (pyStrip s)) "verify" = true) :
    analyzeDescription (some s) = ⟨true, false, [], 80, 10⟩ := by
  have hne : (pyStrip s).isEmpty = false := by
    rcases h : (pyStrip s).isEmpty with _ | _
    · rfl
    · exfalso
      rw [String.isEmpty_iff] at h
      rw [h] at hchar
      simp at hchar
  have hsne : s.isEmpty = false := by
    rcases h : s.isEmpty with _ | _
    · rfl
    · exfalso
      rw [String.isEmpty_iff] at h
      subst h
      have : pyStrip "" = "" := rfl
      rw [this] at hchar
      simp at hchar
  have hac : acKeywords.any (fun k => strContains (pyLower (pyStrip s)) k) = true := by
    rw [List.any_eq_true]
    exact ⟨"given", by simp [acKeywords], hg⟩
  have hti : testKeywords.any (fun k => strContains (pyLower (pyStrip s)) k) = true := by
    rw [List.any_eq_true]
    exact ⟨"verify", by simp [testKeywords], hv⟩
  simp only [analyzeDescription, hsne, hne, Bool.false_or, if_neg, hchar, hword,
    hac, hti, Bool.not_true, Bool.false_and, Bool.and_false]
  norm_num

/-- Witness for C9 at a concrete 80-character, 10-word description. -/
theorem c9_witness :
    analyzeDescription (some ("Given correctly formatted credentials " ++
      "When submitted verify Then dashboard loads")) = ⟨true, false, [], 80, 10⟩ :=
  c9_strong_description_no_warnings _ (by decide) (by decide) (by decide) (by decide)

/-! ## C10: combined image list -/

/-- C10: for every issue, `get_all_images` (at its default bound 4)
returns at most 4 attachments: the first `min(2, n)` attachments of the
issue itself first, then attachments taken in order from the parent to
fill the remaining slots; with no parent or no parent attachments the
result is exactly the issue's first `min(2, n)` attachments. -/
theorem c10_image_merging (issue : JiraIssue) :
    (getAllImages issue 4).length ≤ 4 ∧
    getAllImages issue 4 = (childAtts issue).take 2 ++
      (parentAtts issue).take (4 - ((childAtts issue).take 2).length) ∧
    (issue.parent = none ∨ parentAtts issue = [] →
      getAllImages issue 4 = (childAtts issue).take 2) := by
  have hchild :
      (if !(childAtts issue).isEmpty then
        (childAtts issue).take (min 2 (childAtts issue).length) else []) =
      (childAtts issue).take 2 := by
    rcases h : childAtts issue with _ | ⟨x, xs⟩
    · simp
    · simp only [List.isEmpty_cons, Bool.not_false, if_true]
      exact take_min_length _ 2
  have hmain : getAllImages issue 4 = (childAtts issue).take 2 ++
      (parentAtts issue).take (4 - ((childAtts issue).take 2).length) := by
    simp only [getAllImages]
    rw [hchild]
    by_cases hp : (parentAtts issue).isEmpty
    · rw [List.isEmpty_iff] at hp
      rw [hp]
      simp
    · have hpb : (parentAtts issue).isEmpty = false := by
        rcases h : (parentAtts issue).isEmpty with _ | _
        · rfl
        · exact absurd h hp
      rw [hpb]
      have hlen : ((childAtts issue).take 2).length ≤ 2 :=
        List.length_take_le 2 (childAtts issue)
      have hpos : 4 - ((childAtts issue).take 2).length > 0 := by omega
      simp only [Bool.not_false, if_true]
      rw [if_pos hpos, take_min_length]
  refine ⟨?_, hmain, ?_⟩
  · rw [hmain]
    have h1 : ((childAtts issue).take 2).length ≤ 2 :=
      List.length_take_le 2 (childAtts issue)
    have h2 : ((parentAtts issue).take
        (4 - ((childAtts issue).take 2).length)).length ≤
        4 - ((childAtts issue).take 2).length :=
      List.length_take_le _ (parentAtts issue)
    rw [List.length_append]
    omega
  · intro h
    rw [hmain]
    have : parentAtts issue = [] := by
      rcases h with h | h
      · unfold parentAtts
        rw [h]
      · exact h
    rw [this]
    simp

/-- Witness for C10 on a concrete parentless issue with three
attachments. -/
theorem c10_witness :
    getAllImages
      ⟨.str "K-1", .str "S", none, ⟨false, true, [], 0, 0⟩, .arr [], .str "Task",
       none,
       some [⟨.str "a.png", "image/png", .num 1, .str "u1", .null⟩,
             ⟨.str "b.png", "image/png", .num 2, .str "u2", .null⟩,
             ⟨.str "c.png", "image/png", .num 3, .str "u3", .null⟩],
       none, none, none⟩ 4 =
    (childAtts
      ⟨.str "K-1", .str "S", none, ⟨false, true, [], 0, 0⟩, .arr [], .str "Task",
       none,
       some [⟨.str "a.png", "image/png", .num 1, .str "u1", .null⟩,
             ⟨.str "b.png", "image/png", .num 2, .str "u2", .null⟩,
             ⟨.str "c.png", "image/png", .num 3, .str "u3", .null⟩],
       none, none, none⟩).take 2 :=
  (c10_image_merging _).2.2 (Or.inl rfl)

/-! ## C1: development-status failures soft-fail -/

/-- A "failed" development-status summary response: the request raised,
or the endpoint answered with a non-200 status. -/
def devSummaryFailedB : Except Unit (Nat × JVal) → Bool
  | .error _ => true
  | .ok (s, _) => s != 200

/-- Two worlds describing the same Jira/GitHub/Figma environment apart
from the development-status endpoints (`devSummary`/`devDetail`), which
may differ arbitrarily. -/
def agreesExceptDev (w w2 : World) : Prop :=
  w2.primary = w.primary ∧ w2.githubToken = w.githubToken ∧
  w2.figmaToken = w.figmaToken ∧ w2.ghPrDetails = w.ghPrDetails ∧
  w2.ghRepoContext = w.ghRepoContext ∧ w2.figmaFetch = w.figmaFetch ∧
  w2.commentsResp = w.commentsResp ∧ w2.parentFetch = w.parentFetch

/-- Any exception raised inside the `try` of `_get_development_info` —
while fetching the summary or any per-application-type detail (steps
1-3), or while extracting from the responses — is absorbed into `None`
without raising. -/
theorem getDevelopmentInfo_exc (w : World) (issueId : JVal)
    (h : collectDevData w issueId = .error ()) :
    getDevelopmentInfo w issueId = .ok none := by
  simp [getDevelopmentInfo, h]

/-- A raising or non-200 summary endpoint makes `_get_development_info`
return `None` without raising. -/
theorem getDevelopmentInfo_failed (w : World) (issueId : JVal)
    (h : devSummaryFailedB (w.devSummary issueId) = true) :
    getDevelopmentInfo w issueId = .ok none := by
  cases hs : w.devSummary issueId with
  | error e => simp [getDevelopmentInfo, collectDevData, hs]
  | ok p =>
      obtain ⟨s, d⟩ := p
      rw [hs] at h
      simp only [devSummaryFailedB, bne_iff_ne, ne_eq] at h
      simp [getDevelopmentInfo, collectDevData, hs, h]

/-- An empty collection (no commits, pull requests or branches) makes
`_get_development_info` return `None` rather than an empty
`DevelopmentInfo`. -/
theorem getDevelopmentInfo_emptyCollection (w : World) (issueId : JVal)
    (h : collectDevData w issueId = .ok (some ([], [], []))) :
    getDevelopmentInfo w issueId = .ok none := by
  simp [getDevelopmentInfo, h]

/-- `parsePrimary` reads only the primary response. -/
theorem parsePrimary_congr (w w2 : World) (h : w2.primary = w.primary) :
    parsePrimary w2 = parsePrimary w := by
  unfold parsePrimary
  rw [h]

/-- `commentsBlock` reads only the comments response. -/
theorem commentsBlock_congr (w w2 : World)
    (h : w2.commentsResp = w.commentsResp) :
    commentsBlock w2 = commentsBlock w := by
  unfold commentsBlock getComments
  rw [h]

/-- `parentBlock` reads the world only through the parent fetch. -/
theorem parentBlock_congr (w w2 : World) (h : w2.parentFetch = w.parentFetch)
    (fieldsVal : JVal) : parentBlock w2 fieldsVal = parentBlock w fieldsVal := by
  unfold parentBlock
  simp only [h]

/-- `assembleCore` never consults the development-status endpoints. -/
theorem assembleCore_congr (w w2 : World)
    (hc : w2.commentsResp = w.commentsResp)
    (hp : w2.parentFetch = w.parentFetch) (p : PrimaryParsed) :
    assembleCore w2 p = assembleCore w p := by
  unfold assembleCore
  simp only [commentsBlock_congr w w2 hc, parentBlock_congr w w2 hp]

/-- **C1.**  Development-status resolution soft-fails: (i) any exception
raised while fetching dev-status data — during the summary request or
any per-application-type detail request of `_get_development_info`'s
`try` (`collectDevData = .error`) — makes the resolution return `None`
("no activity") without raising; (ii) the same holds when the summary
endpoint answers with any non-200 status (or raises); (iii) if no
commits, pull requests or branches were collected, the result is
likewise `None` rather than an empty `DevelopmentInfo`; (iv) whenever
`get_issue` succeeds on some environment, it still completes and returns
an issue object on the same environment with the development-status
endpoints failing arbitrarily — the summary raising or non-200, or any
exception during the dev-status fetches. -/
theorem c1_dev_status_soft_fail :
    (∀ (w : World) (issueId : JVal),
        collectDevData w issueId = .error () →
        getDevelopmentInfo w issueId = .ok none) ∧
    (∀ (w : World) (issueId : JVal),
        devSummaryFailedB (w.devSummary issueId) = true →
        getDevelopmentInfo w issueId = .ok none) ∧
    (∀ (w : World) (issueId : JVal),
        collectDevData w issueId = .ok (some ([], [], [])) →
        getDevelopmentInfo w issueId = .ok none) ∧
    (∀ (w w2 : World) (issue : JiraIssue),
        getIssue w = .ok issue → agreesExceptDev w w2 →
        (∀ i, devSummaryFailedB (w2.devSummary i) = true ∨
          collectDevData w2 i = .error ()) →
        ∃ issue2 : JiraIssue, getIssue w2 = .ok issue2) := by
  refine ⟨getDevelopmentInfo_exc, getDevelopmentInfo_failed,
    getDevelopmentInfo_emptyCollection, ?_⟩
  intro w w2 issue hok hagree hfail
  obtain ⟨hprim, -, -, -, -, -, hcmts, hpar⟩ := hagree
  have hpc := parsePrimary_congr w w2 hprim
  unfold getIssue at hok ⊢
  cases hp : parsePrimary w with
  | error e =>
      rw [hp] at hok
      simp at hok
  | ok p =>
      simp only [hp] at hok
      cases hdw : getDevelopmentInfo w p.issueId with
      | error e0 =>
          rw [hdw] at hok
          simp [liftE] at hok
      | ok dev =>
          simp only [hdw, liftE] at hok
          cases ha : assembleCore w p with
          | error e1 =>
              rw [ha] at hok
              simp at hok
          | ok tup =>
              obtain ⟨atts, cmts, par, lnk, key⟩ := tup
              have hdev2 : getDevelopmentInfo w2 p.issueId = .ok none := by
                rcases hfail p.issueId with hh | hh
                · exact getDevelopmentInfo_failed w2 p.issueId hh
                · exact getDevelopmentInfo_exc w2 p.issueId hh
              have hac := assembleCore_congr w w2 hcmts hpar p
              simp only [hpc, hp, hdev2, liftE, hac, ha]
              exact ⟨_, rfl⟩

/-- A concrete environment on which `get_issue` succeeds: a 200 primary
response with empty fields, a 200 development-status summary reporting no
activity, no GitHub/Figma tokens, and a failing comments request. -/
def c1World : World :=
  ⟨.ok (200, .obj [("id", .str "10001"), ("key", .str "PROJ-1"),
      ("fields", .obj [])]),
   fun _ => .ok (200, .obj []),
   fun _ _ _ => .error (),
   false, false,
   fun _ => none, fun _ => none, fun _ => none,
   .error (),
   fun _ => none⟩

/-- The same environment with the development-status summary endpoint
answering 404. -/
def c1WorldFailed : World :=
  { c1World with devSummary := fun _ => .ok (404, .null) }

/-- The same environment with a 200 summary reporting repository
activity, whose per-application-type detail fetch then raises (the
`devDetail` endpoint of `c1World` raises on every request). -/
def c1WorldDetailRaise : World :=
  { c1World with
      devSummary := fun _ => .ok (200,
        .obj [("summary",
          .obj [("repository",
            .obj [("byInstanceType", .obj [("GitHub", .obj [])])])])]) }

/-- Witness for C1: a raising detail fetch and a 404 summary each make
the resolution yield `None`; on the healthy environment the empty
collection also yields `None`; and `get_issue` still succeeds when the
detail fetch raises. -/
theorem c1_witness :
    getDevelopmentInfo c1WorldDetailRaise (.str "10001") = .ok none ∧
    getDevelopmentInfo c1WorldFailed (.str "10001") = .ok none ∧
    getDevelopmentInfo c1World (.str "10001") = .ok none ∧
    ∃ issue2 : JiraIssue, getIssue c1WorldDetailRaise = .ok issue2 := by
  refine ⟨?_, ?_, ?_, ?_⟩
  · exact c1_dev_status_soft_fail.1 c1WorldDetailRaise (.str "10001") (by decide)
  · exact c1_dev_status_soft_fail.2.1 c1WorldFailed (.str "10001") (by decide)
  · exact c1_dev_status_soft_fail.2.2.1 c1World (.str "10001") (by decide)
  · exact c1_dev_status_soft_fail.2.2.2 c1World c1WorldDetailRaise
      ⟨.str "PROJ-1", .str "", none, ⟨false, true, [noDescWarning], 0, 0⟩,
       .arr [], .str "Unknown", none, none, none, none, none⟩
      (by decide) ⟨rfl, rfl, rfl, rfl, rfl, rfl, rfl, rfl⟩
      (fun i => Or.inr rfl)
